import Mathlib

/-!
# Verification of the ext4 image writer layout engine

A shallow embedding of the `ext4-image-writer` Rust crate
(`src/lib.rs`, `src/file_tree.rs`, `src/ext4_h.rs`) together with proofs
about the claims of its specification.  Machine integers are modelled as
`Nat` with explicit truncation where the source performs narrowing casts;
fallible operations return `Option` or an explicit result type; Rust
panics (assertion failures, unwraps, arithmetic aborts) are modelled as a
distinct `panics` outcome.
-/

namespace ExtImg

/-- Rust `u64::div_ceil` / `usize::div_ceil` on natural numbers. -/
def divCeil (a b : Nat) : Nat := (a + b - 1) / b

/-- Little-endian byte serialisation of a `u16` value. -/
def u16le (v : Nat) : List Nat := [v % 256, v / 256 % 256]

/-- Little-endian byte serialisation of a `u32` value. -/
def u32le (v : Nat) : List Nat :=
  [v % 256, v / 256 % 256, v / 65536 % 256, v / 16777216 % 256]

/-- UTF-8 encoding of one character. -/
def charUtf8 (c : Char) : List Nat :=
  let n := c.toNat
  if n < 0x80 then [n]
  else if n < 0x800 then [0xC0 + n / 64, 0x80 + n % 64]
  else if n < 0x10000 then [0xE0 + n / 4096, 0x80 + n / 64 % 64, 0x80 + n % 64]
  else [0xF0 + n / 262144, 0x80 + n / 4096 % 64, 0x80 + n / 64 % 64, 0x80 + n % 64]

/-- The UTF-8 bytes of a string, as the Rust `str::as_bytes` /
`str::len` view of the staged names. -/
def strBytes (s : String) : List Nat := (s.data.map charUtf8).flatten

/-! ## The staging tree (`file_tree.rs`)

`Directory` is `Vec<(String, DirectoryEntry)>`; an entry is either a
subdirectory or a file holding its inode number. -/

mutual
/-- A `DirectoryEntry` from `file_tree.rs`: a subdirectory or a file
holding its inode number. -/
inductive DirectoryEntry where
  | directory : Directory → DirectoryEntry
  | file : Nat → DirectoryEntry

/-- `Directory(Vec<(String, DirectoryEntry)>)`: the ordered children of
a staged directory, as an explicit cons list so that recursion over the
tree stays structural. -/
inductive Directory where
  | nil : Directory
  | cons : String → DirectoryEntry → Directory → Directory
end

/-- `Vec::push` on the children list. -/
def Directory.push : Directory → String → DirectoryEntry → Directory
  | Directory.nil, name, e => Directory.cons name e Directory.nil
  | Directory.cons n x rest, name, e => Directory.cons n x (rest.push name e)

/-- `iter().any(|(n, _)| n == name)`: does a child of this name exist? -/
def Directory.hasName : Directory → String → Bool
  | Directory.nil, _ => false
  | Directory.cons n _ rest, name => n = name || rest.hasName name

/-- `iter_mut().find(|(name, _)| name == part)` as a read-only lookup. -/
def Directory.findName : Directory → String → Option DirectoryEntry
  | Directory.nil, _ => none
  | Directory.cons n e rest, name => if n = name then some e else rest.findName name

/-- Outcome of a Rust function returning `io::Result`, with a separate
constructor for panics (failed `assert!`, `unwrap`, arithmetic aborts,
out-of-bounds indexing). -/
inductive RResult (α : Type) where
  | ok : α → RResult α
  | err : String → RResult α
  | panics : RResult α
  deriving DecidableEq, Repr

/-- Rust `str::split('/')` at the character-list level: cut at every
slash, keeping empty pieces (so the empty string yields one empty
piece). -/
def splitSlash : List Char → List Char → List (List Char)
  | [], acc => [acc.reverse]
  | c :: rest, acc =>
    if c = '/' then acc.reverse :: splitSlash rest []
    else splitSlash rest (c :: acc)

/-- `path.split('/').filter(|s| !s.is_empty())` from `file_tree.rs`. -/
def splitParts (path : String) : List String :=
  ((splitSlash path.data []).map (fun l => String.mk l)).filter (fun s => s ≠ "")

/-- Rust `str::rsplit_once('/')`: split around the last slash, `none`
when the path contains no slash. -/
def rsplitOnce (path : String) : Option (String × String) :=
  let l := path.data
  match l.reverse.findIdx? (fun c => c = '/') with
  | none => none
  | some k =>
    let i := l.length - 1 - k
    some (⟨l.take i⟩, ⟨l.drop (i + 1)⟩)

/-- `Directory::get_name`: the final path component. -/
def getName (path : String) : String :=
  match rsplitOnce path with
  | some (_, n) => n
  | none => path

/-- The parent-path prefix used by `get_parent_directory_mut`. -/
def parentPath (path : String) : String :=
  match rsplitOnce path with
  | some (p, _) => p
  | none => ""

/-- `Directory::get_mut` restricted to lookup: walk `parts` from the
root.  Empty `parts` reaches the `unreachable!()` (or, for the empty
string, the explicit `panic!`), modelled as `none` bubbled to callers
that treat it as a panic. -/
def getEntryAux : Directory → List String → Option DirectoryEntry
  | _, [] => none
  | d, [p] => d.findName p
  | d, p :: q :: rest =>
    match d.findName p with
    | some (DirectoryEntry.directory sub) => getEntryAux sub (q :: rest)
    | some (DirectoryEntry.file _) => none
    | none => none

/-- `Directory::get_mut` as used by `mkdir_p` (`is_none` test): panics on
a path with no non-empty component, otherwise a lookup. -/
def getMut (d : Directory) (path : String) : RResult (Option DirectoryEntry) :=
  match splitParts path with
  | [] => RResult.panics
  | parts => RResult.ok (getEntryAux d parts)

/-- Navigate to the directory named by `parts` (the parent path of an
operation) and apply the in-place modification `f` to it, rebuilding the
tree.  Mirrors `get_parent_directory_mut` composed with `get_mut`:
an empty `parts` list hits `get_mut`'s `unreachable!()`; a file at the
last component yields the `parent is a file` error; a missing or
file-blocked intermediate component yields `parent does not exist`. -/
def navStep (p : String) (fileMsg : String) (g : Directory → RResult Directory) :
    Directory → RResult Directory
  | Directory.nil => RResult.err "parent directory does not exist"
  | Directory.cons n e rest =>
    if n = p then
      match e with
      | DirectoryEntry.directory sub =>
        match g sub with
        | RResult.ok sub2 => RResult.ok (Directory.cons n (DirectoryEntry.directory sub2) rest)
        | RResult.err m => RResult.err m
        | RResult.panics => RResult.panics
      | DirectoryEntry.file _ => RResult.err fileMsg
    else
      match navStep p fileMsg g rest with
      | RResult.ok rest2 => RResult.ok (Directory.cons n e rest2)
      | RResult.err m => RResult.err m
      | RResult.panics => RResult.panics

def navModify : List String → (Directory → RResult Directory) → Directory → RResult Directory
  | [], _, _ => RResult.panics
  | [p], f, d => navStep p "parent is a file, not a directory" f d
  | p :: q :: rest, f, d =>
    navStep p "parent directory does not exist" (navModify (q :: rest) f) d

/-- Apply `f` to the parent directory of `path`
(`get_parent_directory_mut`): the root itself when the parent prefix is
empty. -/
def modifyParent (d : Directory) (path : String) (f : Directory → RResult Directory) :
    RResult Directory :=
  let pp := parentPath path
  if pp = "" then f d else navModify (splitParts pp) f d

/-- `Directory::create_file`: register `inode` under `path`; fails when
the name already exists in the parent or the parent is missing/a file. -/
def create_file (d : Directory) (path : String) (inode : Nat) : RResult Directory :=
  modifyParent d path (fun parent =>
    if parent.hasName (getName path) then
      RResult.err "path already exists"
    else
      RResult.ok (parent.push (getName path) (DirectoryEntry.file inode)))

/-- `Directory::mkdir`: create an empty subdirectory under `path`. -/
def mkdir (d : Directory) (path : String) : RResult Directory :=
  modifyParent d path (fun parent =>
    if parent.hasName (getName path) then
      RResult.err "path already exists"
    else
      RResult.ok (parent.push (getName path) (DirectoryEntry.directory Directory.nil)))

/-- The prefix-creation loop of `mkdir_p`: for each proper prefix of the
component list, `mkdir` it when `get_mut` does not find it. -/
def mkdirPPrefixes (parts : List String) : Nat → Directory → RResult Directory
  | 0, d => RResult.ok d
  | Nat.succ i, d =>
    match mkdirPPrefixes parts i d with
    | RResult.ok d2 =>
      let subPath := String.intercalate "/" (parts.take (i + 1))
      match getMut d2 subPath with
      | RResult.ok none => mkdir d2 subPath
      | RResult.ok (some _) => RResult.ok d2
      | RResult.err m => RResult.err m
      | RResult.panics => RResult.panics
    | RResult.err m => RResult.err m
    | RResult.panics => RResult.panics

/-- `Directory::mkdir_p`.  When `path` has no non-empty component,
`parts.len() - 1` underflows on the `usize` and the subsequent
`parts[..=i]` slice indexing is out of bounds, so the call panics in
both debug and release builds. -/
def mkdir_p (d : Directory) (path : String) : RResult Directory :=
  let parts := splitParts path
  match parts with
  | [] => RResult.panics
  | _ =>
    match mkdirPPrefixes parts (parts.length - 1) d with
    | RResult.ok d2 => mkdir d2 path
    | RResult.err m => RResult.err m
    | RResult.panics => RResult.panics

/-! ## Fixed record codecs (`ext4_h.rs`) -/

/-- `FileType` from `ext4_h.rs`. -/
inductive FileType where
  | Null
  | Fifo
  | CharacterDevice
  | Directory
  | BlockDevice
  | RegularFile
  | SymbolicLink
  | Socket
  deriving DecidableEq, Repr

/-- `FileType::as_mode`: the high nibble of `i_mode`. -/
def FileType.as_mode : FileType → Nat
  | .Null => 0
  | .Fifo => 0x1000
  | .CharacterDevice => 0x2000
  | .Directory => 0x4000
  | .BlockDevice => 0x6000
  | .RegularFile => 0x8000
  | .SymbolicLink => 0xA000
  | .Socket => 0xC000

/-- `FileType::as_directory_entry_type`. -/
def FileType.as_directory_entry_type : FileType → Nat
  | .Null => 0
  | .RegularFile => 1
  | .Directory => 2
  | .CharacterDevice => 3
  | .BlockDevice => 4
  | .Fifo => 5
  | .Socket => 6
  | .SymbolicLink => 7

/-- `Ext4DirEntry`: the meta record plus the name (as its UTF-8 bytes;
Rust stores a `String` and serialises `name.as_bytes()`). -/
structure Ext4DirEntry where
  inode : Nat
  rec_len : Nat
  name_len : Nat
  file_type : Nat
  name : List Nat
  deriving DecidableEq, Repr

/-- `Ext4DirEntry::new`: `rec_len` is `8 + name_len` aligned up to 4
bytes.  The `u8` conversion of the name length panics (`expect`) for a
name longer than 255 bytes, modelled as `none`. -/
def Ext4DirEntry.new (inode : Nat) (ft : FileType) (name : List Nat) : Option Ext4DirEntry :=
  if name.length ≤ 255 then
    some { inode := inode
           rec_len := divCeil (name.length + 8) 4 * 4
           name_len := name.length
           file_type := ft.as_directory_entry_type
           name := name }
  else
    none

/-- `Ext4DirEntry::is_directory`. -/
def Ext4DirEntry.is_directory (e : Ext4DirEntry) : Bool :=
  e.file_type = FileType.Directory.as_directory_entry_type

/-- `Ext4DirEntry::as_bytes`: a buffer of `rec_len` zero bytes with the
8-byte meta record at the front and the name at offset 8. -/
def Ext4DirEntry.as_bytes (e : Ext4DirEntry) : List Nat :=
  u32le e.inode ++ u16le e.rec_len ++ [e.name_len % 256, e.file_type % 256] ++
    e.name ++ List.replicate (e.rec_len - 8 - e.name.length) 0

/-- Sum of the `rec_len` fields of a list of directory entries (the
`entries.iter().map(rec_len).sum()` expression of the two `fits`
methods). -/
def sumRec (entries : List Ext4DirEntry) : Nat :=
  (entries.map (fun e => e.rec_len)).sum

/-- `InlineLinearDirectoryBlock::fits`: the accumulated entries plus the
candidate entry (its `rec_len` plus the 8-byte meta size) must stay
within `size`. -/
def inlineFits (size : Nat) (entries : List Ext4DirEntry) (e : Ext4DirEntry) : Bool :=
  sumRec entries + (e.rec_len + 8) ≤ size

/-- `InlineLinearDirectoryBlock::as_bytes`, expressed by sequential
serialisation: every entry occupies exactly its `rec_len` bytes except
the last, whose `rec_len` is widened to the remaining size; an empty
block serialises one null entry spanning the whole area. -/
def inlineBlockBytes (size : Nat) : List Ext4DirEntry → List Nat
  | [] =>
    Ext4DirEntry.as_bytes
      { inode := 0, rec_len := size, name_len := 0, file_type := 0, name := [] }
  | [e] => Ext4DirEntry.as_bytes { e with rec_len := size }
  | e :: e2 :: rest => e.as_bytes ++ inlineBlockBytes (size - e.rec_len) (e2 :: rest)

/-- The distribution loop of `create_directory_inode_inline`: each entry
goes to the block area (capacity `blockSize`) when it fits there, else
to the xattr area (capacity `xattrSize`) when it fits there, else inline
encoding fails. -/
def distributeInline (blockSize xattrSize : Nat) :
    List Ext4DirEntry → List Ext4DirEntry → List Ext4DirEntry →
    Option (List Ext4DirEntry × List Ext4DirEntry)
  | [], blockEs, xattrEs => some (blockEs, xattrEs)
  | e :: rest, blockEs, xattrEs =>
    if inlineFits blockSize blockEs e then
      distributeInline blockSize xattrSize rest (blockEs ++ [e]) xattrEs
    else if inlineFits xattrSize xattrEs e then
      distributeInline blockSize xattrSize rest blockEs (xattrEs ++ [e])
    else
      none

/-- `Ext4Inode`, restricted to the fields the modelled operations read
or write (`i_mode`, `i_links_count`, size and block-count halves,
`i_flags`, the 60-byte block area and the 96-byte extra area).  The
remaining fields are fixed-value or never touched by the claims. -/
structure Ext4Inode where
  i_mode : Nat := 0
  i_links_count : Nat := 0
  i_size_lo : Nat := 0
  i_size_high : Nat := 0
  i_blocks_lo : Nat := 0
  i_blocks_high : Nat := 0
  i_flags : Nat := 0
  i_block : List Nat := List.replicate 60 0
  rest : List Nat := List.replicate 96 0
  deriving DecidableEq, Repr

/-- `Ext4Inode::MAX_INLINE_SIZE_BLOCK`. -/
def Ext4Inode.MAX_INLINE_SIZE_BLOCK : Nat := 60

/-- `Ext4ExtAttrEntryData::SIZE` (1+1+2+4+4+4+4 bytes). -/
def Ext4ExtAttrEntryData.SIZE : Nat := 20

/-- `Ext4Inode::MAX_INLINE_SIZE_XATTR = 96 - 20 - 4 - 4 = 68`. -/
def Ext4Inode.MAX_INLINE_SIZE_XATTR : Nat :=
  96 - Ext4ExtAttrEntryData.SIZE - 4 - 4

/-- `Ext4Inode::MAX_INLINE_SIZE = 60 + 68 = 128`. -/
def Ext4Inode.MAX_INLINE_SIZE : Nat :=
  Ext4Inode.MAX_INLINE_SIZE_BLOCK + Ext4Inode.MAX_INLINE_SIZE_XATTR

/-- `set_size` (u64 split into `i_size_high`/`i_size_lo`). -/
def Ext4Inode.set_size (inode : Ext4Inode) (v : Nat) : Ext4Inode :=
  { inode with i_size_high := v / 2 ^ 32 % 2 ^ 32, i_size_lo := v % 2 ^ 32 }

/-- `size` getter. -/
def Ext4Inode.size (inode : Ext4Inode) : Nat :=
  inode.i_size_high * 2 ^ 32 + inode.i_size_lo

/-- `set_blocks` (u48 split into a u16 high half and u32 low half). -/
def Ext4Inode.set_blocks (inode : Ext4Inode) (v : Nat) : Ext4Inode :=
  { inode with i_blocks_high := v / 2 ^ 32 % 2 ^ 16, i_blocks_lo := v % 2 ^ 32 }

/-- `blocks` getter. -/
def Ext4Inode.blocks (inode : Ext4Inode) : Nat :=
  inode.i_blocks_high * 2 ^ 32 + inode.i_blocks_lo

/-- `update_size`: sets the size and the 512-byte-sector count
`ceil(size / 4096) * 8`. -/
def Ext4Inode.update_size (inode : Ext4Inode) (size : Nat) : Ext4Inode :=
  (inode.set_size size).set_blocks (divCeil size 4096 * 8)

/-- `set_mode`: keeps the file-type nibble, replaces permission bits. -/
def Ext4Inode.set_mode (inode : Ext4Inode) (mode : Nat) : Ext4Inode :=
  { inode with i_mode := inode.i_mode / 0x1000 * 0x1000 + mode % 0x1000 }

/-- `set_file_type`: keeps permission bits, replaces the type nibble. -/
def Ext4Inode.set_file_type (inode : Ext4Inode) (ft : FileType) : Ext4Inode :=
  { inode with i_mode := inode.i_mode % 0x1000 + ft.as_mode }

/-- `set_links_count`. -/
def Ext4Inode.set_links_count (inode : Ext4Inode) (count : Nat) : Ext4Inode :=
  { inode with i_links_count := count }

/-- `is_directory`: the type nibble equals the directory mode. -/
def Ext4Inode.is_directory (inode : Ext4Inode) : Bool :=
  inode.i_mode / 0x1000 * 0x1000 = FileType.Directory.as_mode

/-- The serialised `Ext4ExtAttrEntryData` written by `with_inline_data`:
name_len 4, name_index 7, value_offs 24, value_inum 0, the value size,
hash 0, and the name bytes of the string `data`. -/
def xattrEntryBytes (valueSize : Nat) : List Nat :=
  [4, 7] ++ u16le 24 ++ u32le 0 ++ u32le valueSize ++ u32le 0 ++ [0x64, 0x61, 0x74, 0x61]

/-- `Ext4Inode::with_inline_data`: inline-data inode with `block_data`
in the 60-byte block area and `xattr_data` as the value of the `data`
extended attribute at offset 28 of the extra area.  `none` models the
`assert!` failures (block data over 60 bytes, xattr data over 68 bytes,
or xattr data present while the block area is not full). -/
def Ext4Inode.with_inline_data (block_data xattr_data : List Nat) (ty : FileType) :
    Option Ext4Inode :=
  if block_data.length ≤ Ext4Inode.MAX_INLINE_SIZE_BLOCK ∧
      xattr_data.length ≤ Ext4Inode.MAX_INLINE_SIZE_XATTR ∧
      (block_data.length < 60 → xattr_data = []) then
    some <|
      let base := (({} : Ext4Inode).set_file_type ty).set_links_count 1 |>.set_size
        (block_data.length + xattr_data.length)
      { base with
        i_flags := 0x10000000
        i_block := block_data ++ List.replicate (60 - block_data.length) 0
        rest := [0x00, 0x00, 0x02, 0xEA] ++ xattrEntryBytes xattr_data.length ++
          [0, 0, 0, 0] ++ xattr_data ++
          List.replicate (96 - 28 - xattr_data.length) 0 }
  else
    none

/-- `Allocation`: a half-open range of absolute block indices.  The Rust
field `end` is called `stop` here (`end` is reserved in Lean). -/
structure Allocation where
  start : Nat
  stop : Nat
  deriving DecidableEq, Repr

/-- `Ext4ExtentLeafNode::MAX_LEN`. -/
def Ext4ExtentLeafNode.MAX_LEN : Nat := 32768

/-- `Ext4ExtentLeafNode` (logical start, length, physical start split
into u16 high and u32 low halves). -/
structure Ext4ExtentLeafNode where
  ee_block : Nat := 0
  ee_len : Nat := 0
  ee_start_hi : Nat := 0
  ee_start_lo : Nat := 0
  deriving DecidableEq, Repr

/-- `set_start` on a leaf node. -/
def Ext4ExtentLeafNode.set_start (e : Ext4ExtentLeafNode) (v : Nat) : Ext4ExtentLeafNode :=
  { e with ee_start_hi := v / 2 ^ 32 % 2 ^ 16, ee_start_lo := v % 2 ^ 32 }

/-- `start` getter on a leaf node. -/
def Ext4ExtentLeafNode.start (e : Ext4ExtentLeafNode) : Nat :=
  e.ee_start_hi * 2 ^ 32 + e.ee_start_lo

/-- `Ext4InlineExtents::MAX_INLINE_BLOCKS = 4 * 32768`. -/
def Ext4InlineExtents.MAX_INLINE_BLOCKS : Nat := Ext4ExtentLeafNode.MAX_LEN * 4

/-- The leaf for extent index `i` of an allocation of `blocks` blocks
starting at `start` (shared by the inline and the indirect encoder):
logical start `i * 32768` (as u32), length 32768 except for the final
partial extent, physical start `start + i * 32768`. -/
def extentLeaf (start blocks needed i : Nat) : Ext4ExtentLeafNode :=
  let len := if i = needed - 1 then blocks - i * Ext4ExtentLeafNode.MAX_LEN
             else Ext4ExtentLeafNode.MAX_LEN
  (Ext4ExtentLeafNode.mk (i * Ext4ExtentLeafNode.MAX_LEN % 2 ^ 32) len 0 0).set_start
    (start + i * Ext4ExtentLeafNode.MAX_LEN)

/-- `Ext4InlineExtents`: an extent header (entries count; magic, max=4,
depth=0 and generation 0 are fixed) plus a 4-slot leaf array. -/
structure Ext4InlineExtents where
  eh_entries : Nat
  extents : List Ext4ExtentLeafNode
  deriving DecidableEq, Repr

/-- `Ext4InlineExtents::new`: up to four leaves describing the
allocation; `none` models the `assert!(blocks <= MAX_INLINE_BLOCKS)`. -/
def Ext4InlineExtents.new (allocation : Allocation) : Option Ext4InlineExtents :=
  let blocks := allocation.stop - allocation.start
  if blocks ≤ Ext4InlineExtents.MAX_INLINE_BLOCKS then
    let needed := divCeil blocks Ext4ExtentLeafNode.MAX_LEN
    some { eh_entries := needed
           extents := (List.range 4).map (fun i =>
             if i < needed then extentLeaf allocation.start blocks needed i
             else Ext4ExtentLeafNode.mk 0 0 0 0) }
  else
    none

/-- Serialisation of a leaf node (12 bytes). -/
def Ext4ExtentLeafNode.bytes (e : Ext4ExtentLeafNode) : List Nat :=
  u32le e.ee_block ++ u16le e.ee_len ++ u16le e.ee_start_hi ++ u32le e.ee_start_lo

/-- Serialised extent header (12 bytes): magic `0xF30A`, entry count,
capacity, depth, generation 0. -/
def extentHeaderBytes (entries ehMax depth : Nat) : List Nat :=
  u16le 0xF30A ++ u16le entries ++ u16le ehMax ++ u16le depth ++ u32le 0

/-- The 60-byte block-area serialisation of inline extents. -/
def Ext4InlineExtents.bytes (x : Ext4InlineExtents) : List Nat :=
  extentHeaderBytes x.eh_entries 4 0 ++ (x.extents.map Ext4ExtentLeafNode.bytes).flatten

/-- `Ext4ExtentInternalNode` serialisation (12 bytes): logical block 0,
the leaf block number split u32-low/u16-high, 2 unused bytes. -/
def extentInternalNodeBytes (eiBlock leaf : Nat) : List Nat :=
  u32le eiBlock ++ u32le (leaf % 2 ^ 32) ++ u16le (leaf / 2 ^ 32 % 2 ^ 16) ++ u16le 0

/-- The 60-byte block-area serialisation of `Ext4IndirectExtents::new`:
a depth-1 header with one valid internal node pointing at `block`,
followed by three empty node slots. -/
def ext4IndirectExtentsBytes (block : Nat) : List Nat :=
  extentHeaderBytes 1 4 1 ++ extentInternalNodeBytes 0 block ++
    extentInternalNodeBytes 0 0 ++ extentInternalNodeBytes 0 0 ++ extentInternalNodeBytes 0 0

/-- Uninterpreted stand-in for the CRC32C checksum kernel.  No claim in
this development concerns checksum values; the constant only keeps the
byte layout of checksummed blocks the right shape. -/
def crc32cModel (_data : List Nat) : Nat := 0

/-- `Ext4IndirectExtents::create_block`: the 4096-byte extent tree block
(depth-1 header, the leaves of the allocation, zero padding, 4-byte
checksum trailer).  `none` models the assertion that the leaves fit in
one block. -/
def Ext4IndirectExtents.create_block (allocation : Allocation) : Option (List Nat) :=
  let blocks := allocation.stop - allocation.start
  let needed := divCeil blocks Ext4ExtentLeafNode.MAX_LEN
  if 12 + needed * 12 + 4 ≤ 4096 then
    let body := extentHeaderBytes needed ((4096 - 12 - 4) / 12) 1 ++
      ((List.range needed).map (fun i =>
        (extentLeaf allocation.start blocks needed i).bytes)).flatten
    some (body ++ List.replicate (4092 - body.length) 0 ++ u32le (crc32cModel body))
  else
    none

/-! ## Bitmap blocks (`BitmapBlock::from_bytes` and `free_count`) -/

/-- Bit `i` of the 4096-byte snapshot `BitmapBlock::from_bytes(data,
len)`: the source copies `data` and then sets every bit from `len` up to
`4096*8`. -/
def bitmapBit (data : Nat → Bool) (len i : Nat) : Bool :=
  if len ≤ i then true else data i

/-- `BitmapBlock::free_count`: the number of zero bits below `len`. -/
def bitmapFreeCount (data : Nat → Bool) (len : Nat) : Nat :=
  ((List.range len).filter (fun i => bitmapBit data len i = false)).length

/-! ## The layout engine (`lib.rs`) -/

/-- The allocator/device portion of the writer state: the monotone
cursor `used_blocks.next_free` and the number of blocks written to the
block device so far (every `write_block` call emits output bytes). -/
structure AllocSt where
  next_free : Nat
  blockWrites : Nat
  deriving DecidableEq, Repr

/-- `UsageBitmap::allocate`: hand out `n` contiguous blocks from the
cursor. -/
def allocate (st : AllocSt) (n : Nat) : AllocSt × Allocation :=
  ({ st with next_free := st.next_free + n },
   { start := st.next_free, stop := st.next_free + n })

/-- `write_blocks`: one `write_block` device call per started 4096-byte
chunk of the data. -/
def write_blocks (st : AllocSt) (dataLen : Nat) : AllocSt :=
  { st with blockWrites := st.blockWrites + divCeil dataLen 4096 }

/-- `write_blocks_alloc`: allocate `ceil(len / 4096)` blocks and write
the data there. -/
def write_blocks_alloc (st : AllocSt) (dataLen : Nat) : AllocSt × Allocation :=
  let (st1, allocation) := allocate st (divCeil dataLen 4096)
  (write_blocks st1 dataLen, allocation)

/-- `create_inode_with_extents`: inline extents when the allocation has
at most `4 * 32768` blocks, else one further block holding the extent
tree, with `i_blocks` bumped by 8 sectors for it.  `none` models the
assertion failures inside the extent builders. -/
def create_inode_with_extents (st : AllocSt) (size : Nat) (allocation : Allocation)
    (ty : FileType) : Option (AllocSt × Ext4Inode) :=
  let blocks := allocation.stop - allocation.start
  if blocks ≤ Ext4InlineExtents.MAX_INLINE_BLOCKS then
    match Ext4InlineExtents.new allocation with
    | some extents =>
      let inode := ((({} : Ext4Inode).set_file_type ty).set_links_count 1).update_size size
      some (st, { inode with i_flags := 0x80000, i_block := extents.bytes })
    | none => none
  else
    match Ext4IndirectExtents.create_block allocation with
    | some blockBytes =>
      let (st1, indirectAlloc) := write_blocks_alloc st blockBytes.length
      let inode := ((({} : Ext4Inode).set_file_type ty).set_links_count 1).update_size size
      let inode := { inode with i_flags := 0x80000,
                                i_block := ext4IndirectExtentsBytes indirectAlloc.start }
      some (st1, inode.set_blocks (inode.blocks + 8))
    | none => none

/-- `create_inode_with_contents`: inline data for at most 128 bytes
(first 60 in the block area, remainder as the `data` xattr value), else
content blocks plus an extent encoding. -/
def create_inode_with_contents (st : AllocSt) (contents : List Nat) (ty : FileType) :
    Option (AllocSt × Ext4Inode) :=
  if contents.length ≤ Ext4Inode.MAX_INLINE_SIZE then
    let block_data := contents.take Ext4Inode.MAX_INLINE_SIZE_BLOCK
    let xattr_data := if Ext4Inode.MAX_INLINE_SIZE_BLOCK < contents.length then
        contents.drop Ext4Inode.MAX_INLINE_SIZE_BLOCK
      else []
    (Ext4Inode.with_inline_data block_data xattr_data ty).map (fun inode => (st, inode))
  else
    let (st1, allocation) := write_blocks_alloc st contents.length
    create_inode_with_extents st1 contents.length allocation ty

/-- `create_directory_inode_inline` from `lib.rs`: skip the first two
entries (`.` and `..`), distribute the rest over a 56-byte block area
and a 68-byte xattr area, carry the parent inode number (`entries[1]`)
in the leading 4 bytes of the block area.  `RResult.ok none` is the
does-not-fit outcome that makes the caller fall back to linear blocks;
`panics` covers indexing a too-short entry list and the
`with_inline_data` assertions. -/
def create_directory_inode_inline (entries : List Ext4DirEntry) :
    RResult (Option Ext4Inode) :=
  match entries with
  | _ :: parent :: rest =>
    match distributeInline (Ext4Inode.MAX_INLINE_SIZE_BLOCK - 4)
        Ext4Inode.MAX_INLINE_SIZE_XATTR rest [] [] with
    | none => RResult.ok none
    | some (blockEs, xattrEs) =>
      let block_data := u32le parent.inode ++
        inlineBlockBytes (Ext4Inode.MAX_INLINE_SIZE_BLOCK - 4) blockEs
      match Ext4Inode.with_inline_data block_data
          (inlineBlockBytes Ext4Inode.MAX_INLINE_SIZE_XATTR xattrEs) FileType.Directory with
      | some inode => RResult.ok (some inode)
      | none => RResult.panics
  | _ => RResult.panics

/-- The greedy block-filling loop of `create_directory_inode_with_blocks`:
entries are appended to the last block while they fit
(`LinearDirectoryBlock::fits` leaves room for the entry, its meta size
and the 12-byte trailer), otherwise a fresh block is started.  Only the
number of blocks matters downstream; `none` models the `add_entry`
assertion for an entry too large for an empty block. -/
def linFill : List Ext4DirEntry → List Ext4DirEntry → Option (List (List Ext4DirEntry))
  | current, [] => some [current]
  | current, e :: rest =>
    if sumRec current + (e.rec_len + 8) + 12 ≤ 4096 then
      linFill (current ++ [e]) rest
    else if (e.rec_len + 8) + 12 ≤ 4096 then
      (linFill [e] rest).map (fun bs => current :: bs)
    else
      none

/-- The `dir_blocks` vector of `create_directory_inode_with_blocks`:
greedy left-to-right fill starting from one empty block. -/
def linearDirBlocks (entries : List Ext4DirEntry) : Option (List (List Ext4DirEntry)) :=
  linFill [] entries

/-- `create_directory_inode_with_blocks`: serialise the entries into
`n` linear directory blocks and encode the `n * 4096`-byte buffer via
`create_inode_with_contents` (which allocates and writes the blocks).
The buffer is modelled by its length only (`vec![0u8; n * 4096]` in the
source); the packed entry bytes and trailer checksums inside it are not
inspected by any claim. -/
def create_directory_inode_with_blocks (st : AllocSt) (entries : List Ext4DirEntry) :
    Option (AllocSt × Ext4Inode) :=
  match linearDirBlocks entries with
  | none => none
  | some blks =>
    create_inode_with_contents st (List.replicate (blks.length * 4096) 0) FileType.Directory

/-- `create_directory_inode`: inline when possible and allowed, else
linear blocks; then the link count `2 + (directory entries - 2)` (the
count includes `.` and `..`) and mode `0o755`.  `panics` covers a
directory-entry count outside `2 ..= 65535` (u16 conversion and
subtraction) besides the panics of the encoders. -/
def create_directory_inode (st : AllocSt) (entries : List Ext4DirEntry)
    (allow_inline : Bool) : RResult (AllocSt × Ext4Inode) :=
  let afterEncode : RResult (AllocSt × Ext4Inode) :=
    match create_directory_inode_inline entries with
    | RResult.panics => RResult.panics
    | RResult.err m => RResult.err m
    | RResult.ok inlineResult =>
      match inlineResult, allow_inline with
      | some inode, true => RResult.ok (st, inode)
      | _, _ =>
        match create_directory_inode_with_blocks st entries with
        | some r => RResult.ok r
        | none => RResult.panics
  match afterEncode with
  | RResult.ok (st1, inode) =>
    let subdirectories := entries.countP (fun e => e.is_directory)
    if 2 ≤ subdirectories ∧ subdirectories ≤ 65535 then
      RResult.ok (st1, (inode.set_links_count (2 + (subdirectories - 2))).set_mode 0o755)
    else
      RResult.panics
  | RResult.err m => RResult.err m
  | RResult.panics => RResult.panics

/-- The part of the writer state that `write_hierarchy_to_inodes`
mutates: the allocator/device state and the length of the inode pool. -/
structure HierSt where
  alloc : AllocSt
  inodeCount : Nat
  deriving DecidableEq, Repr

/-- The child-iteration of `write_hierarchy_to_inodes` for the children
of the directory with number `inodeNum`: files become regular-file
entries; each subdirectory gets an inode number (11 for `lost+found`
directly under the root, else a fresh one from `alloc_inode`), is fully
written out recursively (its own `.`/`..` entries, recursive children,
and its directory inode via `create_directory_inode`, inline allowed
except for inode 11), and becomes a directory entry.  `none` models any
panic below (in particular `Ext4DirEntry::new` on a >255-byte name). -/
def walkChildren : HierSt → Directory → Nat → Option (HierSt × List Ext4DirEntry)
  | st, Directory.nil, _ => some (st, [])
  | st, Directory.cons name (DirectoryEntry.file inode) rest, inodeNum => do
    let e ← Ext4DirEntry.new inode FileType.RegularFile (strBytes name)
    let (st2, es) ← walkChildren st rest inodeNum
    some (st2, e :: es)
  | st, Directory.cons name (DirectoryEntry.directory sub) rest, inodeNum => do
    let (entryNum, st1) :=
      if inodeNum = 2 ∧ name = "lost+found" then (11, st)
      else (st.inodeCount + 1, { st with inodeCount := st.inodeCount + 1 })
    let dot ← Ext4DirEntry.new entryNum FileType.Directory (strBytes ".")
    let dotdot ← Ext4DirEntry.new inodeNum FileType.Directory (strBytes "..")
    let (st2, subEntries) ← walkChildren st1 sub entryNum
    match create_directory_inode st2.alloc ([dot, dotdot] ++ subEntries)
        (entryNum ≠ 11) with
    | RResult.ok (alloc3, _) =>
      let e ← Ext4DirEntry.new entryNum FileType.Directory (strBytes name)
      let (st4, es) ← walkChildren { st2 with alloc := alloc3 } rest inodeNum
      some (st4, e :: es)
    | _ => none

/-- The number of immediate subdirectories of a staged directory. -/
def countDirChildren : Directory → Nat
  | Directory.nil => 0
  | Directory.cons _ (DirectoryEntry.directory _) rest => 1 + countDirChildren rest
  | Directory.cons _ (DirectoryEntry.file _) rest => countDirChildren rest

/-- Number of staged entries in a directory tree (induction measure). -/
def dirSize : Directory → Nat
  | Directory.nil => 0
  | Directory.cons _ (DirectoryEntry.file _) rest => 1 + dirSize rest
  | Directory.cons _ (DirectoryEntry.directory sub) rest => 1 + dirSize sub + dirSize rest

/-- `write_hierarchy_to_inodes` at the root of the staging tree
(`finalize` calls it with inode 2 as its own parent). -/
def write_hierarchy_to_inodes (st : HierSt) (d : Directory) (inodeNum parentNum : Nat) :
    Option HierSt := do
  let dot ← Ext4DirEntry.new inodeNum FileType.Directory (strBytes ".")
  let dotdot ← Ext4DirEntry.new parentNum FileType.Directory (strBytes "..")
  let (st2, es) ← walkChildren st d inodeNum
  match create_directory_inode st2.alloc ([dot, dotdot] ++ es) (inodeNum ≠ 11) with
  | RResult.ok (alloc3, _) => some { st2 with alloc := alloc3 }
  | _ => none

/-- The whole writer state (`Ext4ImageWriter`): device/allocator state,
inode pool size, declared maximum image size and the staging tree. -/
structure WriterSt where
  alloc : AllocSt
  inodeCount : Nat
  max_size : Nat
  tree : Directory

/-- `bgdt_blocks`: blocks reserved for the group descriptor table
implied by `max_size`. -/
def bgdt_blocks (max_size : Nat) : Nat :=
  divCeil (divCeil max_size (4096 * 4096 * 8) * 64) 4096

/-- `Ext4ImageWriter::new`: claim the superblock block and the GDT
reservation, reserve inodes 1 to 11, pre-create `lost+found`. -/
def newWriter (max_size : Nat) : WriterSt :=
  { alloc := { next_free := 1 + bgdt_blocks max_size, blockWrites := 0 }
    inodeCount := 11
    max_size := max_size
    tree := match mkdir Directory.nil "lost+found" with
            | RResult.ok t => t
            | _ => Directory.nil }

/-- `Ext4ImageWriter::write_file`: allocate an inode, encode the
contents (writing content blocks to the device at once), then register
the path in the staging tree.  On a staging error the inode allocation
and any content-block writes have already happened; only the tree is
left unchanged. -/
def write_file (st : WriterSt) (contents : List Nat) (path : String) (_mode : Nat) :
    WriterSt × RResult Unit :=
  let inode_num := st.inodeCount + 1
  let st1 := { st with inodeCount := st.inodeCount + 1 }
  match create_inode_with_contents st1.alloc contents FileType.RegularFile with
  | none => (st1, RResult.panics)
  | some (alloc2, _) =>
    let st2 := { st1 with alloc := alloc2 }
    match create_file st2.tree path inode_num with
    | RResult.ok t2 => ({ st2 with tree := t2 }, RResult.ok ())
    | RResult.err m => (st2, RResult.err m)
    | RResult.panics => (st2, RResult.panics)

/-- `Ext4ImageWriter::mkdir` (staging tree only). -/
def writerMkdir (st : WriterSt) (path : String) : WriterSt × RResult Unit :=
  match mkdir st.tree path with
  | RResult.ok t2 => ({ st with tree := t2 }, RResult.ok ())
  | RResult.err m => (st, RResult.err m)
  | RResult.panics => (st, RResult.panics)

/-- `Ext4ImageWriter::mkdir_p` (staging tree only). -/
def writerMkdirP (st : WriterSt) (path : String) : WriterSt × RResult Unit :=
  match mkdir_p st.tree path with
  | RResult.ok t2 => ({ st with tree := t2 }, RResult.ok ())
  | RResult.err m => (st, RResult.err m)
  | RResult.panics => (st, RResult.panics)

/-! ## `finalize`: the self-referential block budget -/

/-- `ceil(I * 256 / 4096)`: blocks needed by `I` inode records. -/
def blocksNeededForInodes (numInodes : Nat) : Nat := divCeil (numInodes * 256) 4096

/-- First block-budget estimate of `finalize`: blocks handed out so far,
the inode tables, and the resize-inode indirect block. -/
def numBlocks1 (A numInodes : Nat) : Nat := A + blocksNeededForInodes numInodes + 1

/-- First group-count estimate. -/
def numBlockGroups1 (A numInodes : Nat) : Nat := divCeil (numBlocks1 A numInodes) 32768

/-- Second block-budget estimate: add two bitmap blocks per group. -/
def numBlocks2 (A numInodes : Nat) : Nat :=
  numBlocks1 A numInodes + numBlockGroups1 A numInodes * 2

/-- Final group count `G`. -/
def numBlockGroups2 (A numInodes : Nat) : Nat := divCeil (numBlocks2 A numInodes) 32768

/-- `inodes_per_group`: `I / G` (integer division) rounded up to a
multiple of `4096 / 256 = 16`. -/
def inodesPerGroup (A numInodes : Nat) : Nat :=
  divCeil (numInodes / numBlockGroups2 A numInodes) 16 * 16

/-- The final block budget `B`: per-group inode-table and bitmap blocks
plus the resize-inode indirect block on top of the blocks already handed
out. -/
def numBlocksFinal (A numInodes : Nat) : Nat :=
  A + divCeil (inodesPerGroup A numInodes * 256) 4096 * numBlockGroups2 A numInodes +
    numBlockGroups2 A numInodes * 2 + 1

/-- `ceil(G * 64 / 4096)`: GDT blocks actually used by `G` groups. -/
def usedBgdtBlocks (blockGroups : Nat) : Nat := divCeil (blockGroups * 64) 4096

/-- Length in bytes of the resize inode's indirect block buffer: a zero
u32 followed by one u32 per reserved GDT block in
`(1 + used) .. (bgdt_blocks + 1)`. -/
def resizeIndirectLen (max_size blockGroups : Nat) : Nat :=
  4 + 4 * (bgdt_blocks max_size + 1 - (1 + usedBgdtBlocks blockGroups))

/-- The allocator cursor after `finalize` has emitted everything: the
resize-inode indirect block (`write_blocks_alloc` of the buffer) plus,
per group, one block bitmap, one inode bitmap and the inode table. -/
def finalizeNextFree (A numInodes max_size : Nat) : Nat :=
  A + divCeil (resizeIndirectLen max_size (numBlockGroups2 A numInodes)) 4096 +
    numBlockGroups2 A numInodes *
      (2 + divCeil (inodesPerGroup A numInodes * 256) 4096)

/-- The `block_bitmap_len` argument of the per-group bitmap snapshot in
`finalize`: the remainder of `num_blocks` modulo `32768` for the last
group (with no special case when the remainder is zero), `32768`
otherwise. -/
def blockBitmapLen (block_group num_block_groups num_blocks : Nat) : Nat :=
  if block_group = num_block_groups - 1 then num_blocks % 32768
  else 32768

/-- `Ext4SuperBlock::set_blocks_count`: split a u64 into the
`s_blocks_count_hi` / `s_blocks_count_lo` pair. -/
def setBlocksCountHiLo (v : Nat) : Nat × Nat := (v / 2 ^ 32 % 2 ^ 32, v % 2 ^ 32)

/-- `Ext4SuperBlock::blocks_count`: recombine the halves. -/
def blocksCountOfHiLo (hl : Nat × Nat) : Nat := hl.1 * 2 ^ 32 + hl.2

/-- `Ext4SuperBlock::block_groups_count`: the 64-bit blocks count
truncated to u32, divided (rounding up) by the 32768 blocks per
group. -/
def sbBlockGroupsCount (blocksCount : Nat) : Nat :=
  divCeil (blocksCount % 2 ^ 32) 32768

/-- The observable outputs of `finalize` that the claims are about. -/
structure FinalizeOut where
  blocksCount : Nat
  inodesCountSb : Nat
  inodesPerGroup : Nat
  groupsEmitted : Nat
  inodeRecordsWritten : Nat
  nextFreeFinal : Nat
  lastGroupBitmapLen : Nat
  deriving DecidableEq, Repr

/-- `Ext4ImageWriter::finalize`: write the hierarchy into inodes, solve
the self-referential size computation, build the resize inode, emit
every block group, check the closure assertion and fill the superblock.
All panics (`assert!`, unwraps, the too-many-block-groups abort, the
debug-build overflow aborts of the narrowing conversions) map to
`RResult.panics`. -/
def finalize (st : WriterSt) : RResult FinalizeOut :=
  match write_hierarchy_to_inodes { alloc := st.alloc, inodeCount := st.inodeCount }
      st.tree 2 2 with
  | none => RResult.panics
  | some st1 =>
    let A := st1.alloc.next_free
    let numInodes := st1.inodeCount
    let G := numBlockGroups2 A numInodes
    let ipg := inodesPerGroup A numInodes
    let B := numBlocksFinal A numInodes
    if ipg ≠ 0 ∧ G ≥ divCeil numInodes ipg ∧
        resizeIndirectLen st.max_size G ≤ 4096 ∧
        G ≤ divCeil st.max_size (4096 * 4096 * 8) ∧
        ipg ≤ 32768 ∧ B < 2 ^ 64 then
      let nextFreeAfter := finalizeNextFree A numInodes st.max_size
      if nextFreeAfter = B then
        let sbBlocks := blocksCountOfHiLo (setBlocksCountHiLo B)
        RResult.ok
          { blocksCount := sbBlocks
            inodesCountSb := sbBlockGroupsCount sbBlocks * ipg
            inodesPerGroup := ipg
            groupsEmitted := G
            inodeRecordsWritten := G * ipg
            nextFreeFinal := nextFreeAfter
            lastGroupBitmapLen := blockBitmapLen (G - 1) G B }
      else
        RResult.panics
    else
      RResult.panics

/-! ## Concrete inputs used by the theorems below -/

/-- A 256-byte file name. -/
def c9name : String := String.mk (List.replicate 256 'a')

/-- The inode `create_directory_inode` produces (inline path) from a
`.`/`..`-only entry list: the inline flag is set, the block area holds
the parent inode number followed by an empty linear directory block, and
the extra area holds the `system.data` xattr entry with a 68-byte empty
value block. -/
def c8inode : Ext4Inode :=
  { i_mode := 16877
    i_links_count := 2
    i_size_lo := 128
    i_size_high := 0
    i_blocks_lo := 0
    i_blocks_high := 0
    i_flags := 268435456
    i_block := [2, 0, 0, 0, 0, 0, 0, 0, 56, 0, 0, 0] ++ List.replicate 48 0
    rest := [0, 0, 2, 234, 4, 7, 24, 0, 0, 0, 0, 0, 68, 0, 0, 0, 0, 0, 0, 0,
             100, 97, 116, 97, 0, 0, 0, 0, 0, 0, 0, 0, 68, 0, 0, 0] ++
      List.replicate 60 0 }

/-- A directory entry with a 24-byte name (`rec_len` 32). -/
def c5e1 : Ext4DirEntry :=
  { inode := 11, rec_len := 32, name_len := 24, file_type := 1, name := List.replicate 24 97 }

/-- A directory entry with a 16-byte name (`rec_len` 24). -/
def c5e2 : Ext4DirEntry :=
  { inode := 12, rec_len := 24, name_len := 16, file_type := 1, name := List.replicate 16 98 }

/-- A directory entry with a 4-byte name (`rec_len` 12). -/
def c5e3 : Ext4DirEntry :=
  { inode := 13, rec_len := 12, name_len := 4, file_type := 1, name := List.replicate 4 99 }

/-- The inode `create_directory_inode_inline` produces from a
`.`/`..`-only entry list, before the caller applies the link count and
mode: file type directory, one link, inline flag, size 128. -/
def c5inode : Ext4Inode :=
  { i_mode := 16384
    i_links_count := 1
    i_size_lo := 128
    i_size_high := 0
    i_blocks_lo := 0
    i_blocks_high := 0
    i_flags := 268435456
    i_block := [2, 0, 0, 0, 0, 0, 0, 0, 56, 0, 0, 0] ++ List.replicate 48 0
    rest := [0, 0, 2, 234, 4, 7, 24, 0, 0, 0, 0, 0, 68, 0, 0, 0, 0, 0, 0, 0,
             100, 97, 116, 97, 0, 0, 0, 0, 0, 0, 0, 0, 68, 0, 0, 0] ++
      List.replicate 60 0 }

/-- Twenty-two file names staged before the big file. -/
def c6names : List String :=
  ["f00", "f01", "f02", "f03", "f04", "f05", "f06", "f07", "f08", "f09", "f10", "f11", "f12", "f13", "f14", "f15", "f16", "f17", "f18", "f19", "f20", "f21"]

/-- A writer with 22 empty files staged (inode pool grown to 33, no
content blocks written). -/
def c6small : WriterSt :=
  c6names.foldl (fun st nm => (write_file st [] nm 0o644).1) (newWriter (2 ^ 37))

/-- The staging-tree tail after `lost+found`: the 22 small files and the big file. -/
def c6tail : Directory :=
  (Directory.cons "f00" (DirectoryEntry.file 12)
  (Directory.cons "f01" (DirectoryEntry.file 13)
  (Directory.cons "f02" (DirectoryEntry.file 14)
  (Directory.cons "f03" (DirectoryEntry.file 15)
  (Directory.cons "f04" (DirectoryEntry.file 16)
  (Directory.cons "f05" (DirectoryEntry.file 17)
  (Directory.cons "f06" (DirectoryEntry.file 18)
  (Directory.cons "f07" (DirectoryEntry.file 19)
  (Directory.cons "f08" (DirectoryEntry.file 20)
  (Directory.cons "f09" (DirectoryEntry.file 21)
  (Directory.cons "f10" (DirectoryEntry.file 22)
  (Directory.cons "f11" (DirectoryEntry.file 23)
  (Directory.cons "f12" (DirectoryEntry.file 24)
  (Directory.cons "f13" (DirectoryEntry.file 25)
  (Directory.cons "f14" (DirectoryEntry.file 26)
  (Directory.cons "f15" (DirectoryEntry.file 27)
  (Directory.cons "f16" (DirectoryEntry.file 28)
  (Directory.cons "f17" (DirectoryEntry.file 29)
  (Directory.cons "f18" (DirectoryEntry.file 30)
  (Directory.cons "f19" (DirectoryEntry.file 31)
  (Directory.cons "f20" (DirectoryEntry.file 32)
  (Directory.cons "f21" (DirectoryEntry.file 33)
  (Directory.cons "big" (DirectoryEntry.file 34)
  Directory.nil)))))))))))))))))))))))

/-- The directory entries `walkChildren` builds for `c6tail`. -/
def c6tailEntries : List Ext4DirEntry :=
  [{ inode := 12, rec_len := 12, name_len := 3, file_type := 1, name := [102, 48, 48] },
   { inode := 13, rec_len := 12, name_len := 3, file_type := 1, name := [102, 48, 49] },
   { inode := 14, rec_len := 12, name_len := 3, file_type := 1, name := [102, 48, 50] },
   { inode := 15, rec_len := 12, name_len := 3, file_type := 1, name := [102, 48, 51] },
   { inode := 16, rec_len := 12, name_len := 3, file_type := 1, name := [102, 48, 52] },
   { inode := 17, rec_len := 12, name_len := 3, file_type := 1, name := [102, 48, 53] },
   { inode := 18, rec_len := 12, name_len := 3, file_type := 1, name := [102, 48, 54] },
   { inode := 19, rec_len := 12, name_len := 3, file_type := 1, name := [102, 48, 55] },
   { inode := 20, rec_len := 12, name_len := 3, file_type := 1, name := [102, 48, 56] },
   { inode := 21, rec_len := 12, name_len := 3, file_type := 1, name := [102, 48, 57] },
   { inode := 22, rec_len := 12, name_len := 3, file_type := 1, name := [102, 49, 48] },
   { inode := 23, rec_len := 12, name_len := 3, file_type := 1, name := [102, 49, 49] },
   { inode := 24, rec_len := 12, name_len := 3, file_type := 1, name := [102, 49, 50] },
   { inode := 25, rec_len := 12, name_len := 3, file_type := 1, name := [102, 49, 51] },
   { inode := 26, rec_len := 12, name_len := 3, file_type := 1, name := [102, 49, 52] },
   { inode := 27, rec_len := 12, name_len := 3, file_type := 1, name := [102, 49, 53] },
   { inode := 28, rec_len := 12, name_len := 3, file_type := 1, name := [102, 49, 54] },
   { inode := 29, rec_len := 12, name_len := 3, file_type := 1, name := [102, 49, 55] },
   { inode := 30, rec_len := 12, name_len := 3, file_type := 1, name := [102, 49, 56] },
   { inode := 31, rec_len := 12, name_len := 3, file_type := 1, name := [102, 49, 57] },
   { inode := 32, rec_len := 12, name_len := 3, file_type := 1, name := [102, 50, 48] },
   { inode := 33, rec_len := 12, name_len := 3, file_type := 1, name := [102, 50, 49] },
   { inode := 34, rec_len := 12, name_len := 3, file_type := 1, name := [98, 105, 103] }]

/-- The directory entry for `lost+found` under the root. -/
def c6lfEntry : Ext4DirEntry :=
  { inode := 11, rec_len := 20, name_len := 10, file_type := 2, name := [108, 111, 115, 116, 43, 102, 111, 117, 110, 100] }

/-- The outputs `finalize` produces on `c6full`. -/
def c6out : FinalizeOut :=
  { blocksCount := 65537
    inodesCountSb := 96
    inodesPerGroup := 32
    groupsEmitted := 2
    inodeRecordsWritten := 64
    nextFreeFinal := 65537
    lastGroupBitmapLen := 1 }


/-! ## Claim C10: `mkdir_p` on a path with no non-empty component -/

/-- C10: calling `mkdir_p` with a path that contains no non-empty
component (for example the empty string or a bare slash) panics rather
than returning an `io::Result` error, even though `mkdir` with the path
consisting of one slash returns `Ok`, creating a directory entry with an
empty name. -/
theorem claim_C10_mkdir_p_empty_panics (d : Directory) (path : String)
    (hpath : splitParts path = []) (hfresh : d.hasName "" = false) :
    mkdir_p d path = RResult.panics ∧
    mkdir d "/" = RResult.ok (d.push "" (DirectoryEntry.directory Directory.nil)) := by
  constructor
  · unfold mkdir_p
    rw [hpath]
  · have hsplit : rsplitOnce "/" = some ("", "") := rfl
    unfold mkdir modifyParent parentPath getName
    rw [hsplit]
    simp [hfresh]

/-- Witness for C10 at the slash path and the empty staging tree. -/
theorem claim_C10_witness :
    splitParts "/" = [] ∧ (Directory.nil.hasName "" = false) ∧
    mkdir_p Directory.nil "/" = RResult.panics ∧
    mkdir Directory.nil "/" =
      RResult.ok (Directory.nil.push "" (DirectoryEntry.directory Directory.nil)) := by
  refine ⟨by decide, by decide, ?_⟩
  have h := claim_C10_mkdir_p_empty_panics Directory.nil "/" (by decide) (by decide)
  exact h

/-! ## Claim C2: closure of the self-referential block budget -/

/-- C2: for every writer state reaching the emission phase of
`finalize` (any blocks-handed-out count `A`, inode count and `max_size`)
on which the resize-inode buffer assertion holds, the allocator cursor
after the resize indirect block and all per-group metadata have been
allocated equals the precomputed budget `num_blocks`, so the
`assert_eq!(next_free, num_blocks)` in `finalize` never fails; and the
superblock records exactly that value as its 64-bit `blocks_count`. -/
theorem claim_C2_size_closure (A numInodes max_size : Nat)
    (hresize : resizeIndirectLen max_size (numBlockGroups2 A numInodes) ≤ 4096)
    (hword : numBlocksFinal A numInodes < 2 ^ 64) :
    finalizeNextFree A numInodes max_size = numBlocksFinal A numInodes ∧
    blocksCountOfHiLo (setBlocksCountHiLo (numBlocksFinal A numInodes)) =
      numBlocksFinal A numInodes := by
  constructor
  · have hone : divCeil (resizeIndirectLen max_size (numBlockGroups2 A numInodes)) 4096 = 1 := by
      have h4 : 4 ≤ resizeIndirectLen max_size (numBlockGroups2 A numInodes) := by
        unfold resizeIndirectLen; omega
      unfold divCeil
      omega
    unfold finalizeNextFree numBlocksFinal
    rw [hone]
    ring
  · unfold blocksCountOfHiLo setBlocksCountHiLo
    simp only
    omega

/-- Witness for C2 at the minimal image (`new(device, 1 GiB)` with no
files: 3 blocks handed out, 11 inodes). -/
theorem claim_C2_witness :
    resizeIndirectLen (2 ^ 30) (numBlockGroups2 3 11) ≤ 4096 ∧
    numBlocksFinal 3 11 < 2 ^ 64 ∧
    finalizeNextFree 3 11 (2 ^ 30) = numBlocksFinal 3 11 ∧
    blocksCountOfHiLo (setBlocksCountHiLo (numBlocksFinal 3 11)) = numBlocksFinal 3 11 := by
  refine ⟨by decide, by decide, ?_⟩
  exact claim_C2_size_closure 3 11 (2 ^ 30) (by decide) (by decide)

/-! ## Claim C4: the last group's `block_bitmap_len` -/

/-- C4 counterexample: when `num_blocks` is an exact multiple of
`BLOCK * 8 = 32768` (here one full group of 32768 blocks), `finalize`
passes `num_blocks % 32768 = 0` to the last group's snapshot, not
`32768` as the claim states. -/
theorem claim_C4_counterexample :
    blockBitmapLen 0 1 32768 = 0 ∧ blockBitmapLen 0 1 32768 ≠ 32768 := by
  decide

/-- C4 (amended): the live-bit count passed to the snapshot is `32768`
for every non-last group and `num_blocks % 32768` for the last group
even when that remainder is zero.  Because the allocator hands out
blocks densely, a last group with remainder zero is full (every live bit
already set), and then the `len = 0` snapshot coincides with the
`len = 32768` snapshot the claim describes, bit for bit and in its free
count. -/
theorem claim_C4_amended (g G B : Nat) (data : Nat → Bool)
    (hdata : ∀ i, i < 32768 → data i = true) :
    (g ≠ G - 1 → blockBitmapLen g G B = 32768) ∧
    (g = G - 1 → blockBitmapLen g G B = B % 32768) ∧
    (∀ i, i < 32768 → bitmapBit data 0 i = bitmapBit data 32768 i) ∧
    bitmapFreeCount data 0 = 0 ∧
    bitmapFreeCount data 32768 = 0 := by
  refine ⟨fun h => by simp [blockBitmapLen, h], fun h => by simp [blockBitmapLen, h], ?_, ?_, ?_⟩
  · intro i hi
    simp [bitmapBit, Nat.not_le.mpr hi, hdata i hi]
  · simp [bitmapFreeCount]
  · unfold bitmapFreeCount
    rw [List.length_eq_zero]
    apply List.filter_eq_nil_iff.mpr
    intro i hi
    have hi2 : i < 32768 := List.mem_range.mp hi
    simp [bitmapBit, Nat.not_le.mpr hi2, hdata i hi2]

/-- Witness for C4 (amended) on a fully used group. -/
theorem claim_C4_witness :
    blockBitmapLen 0 3 98304 = 32768 ∧
    blockBitmapLen 2 3 98304 = 98304 % 32768 ∧
    bitmapFreeCount (fun _ => true) 0 = 0 ∧
    bitmapFreeCount (fun _ => true) 32768 = 0 := by
  have h := claim_C4_amended 2 3 98304 (fun _ => true) (fun i _ => rfl)
  have h0 := claim_C4_amended 0 3 98304 (fun _ => true) (fun i _ => rfl)
  exact ⟨h0.1 (by decide), h.2.1 (by decide), h.2.2.2.1, h.2.2.2.2⟩

/-! ## Claim C9: names longer than 255 bytes -/

set_option maxRecDepth 40000 in
/-- C9 counterexample: `write_file` with a 256-byte final component does
not fail at all — the staging tree accepts the name and the call returns
`Ok`; the `u8` conversion of the name length in `Ext4DirEntry::new`
(reached only later, inside `finalize`) panics instead of producing a
`NameTooLong` error. -/
theorem claim_C9_counterexample :
    255 < (strBytes c9name).length ∧
    (write_file (newWriter (2 ^ 37)) [] c9name 0o644).2 = RResult.ok () ∧
    Ext4DirEntry.new 12 FileType.RegularFile (strBytes c9name) = none := by
  decide

/-- C9 (amended): neither `write_file` nor `mkdir` validates the length
of the final component: a fresh over-long name is accepted into the
staging tree (the call succeeds), and the failure surfaces only as a
panic when `finalize` builds the directory entry for it. -/
theorem claim_C9_amended (t : Directory) (name : String) (inode : Nat) (ft : FileType)
    (hlen : 255 < (strBytes name).length) (hnoslash : rsplitOnce name = none)
    (hfresh : t.hasName name = false) :
    create_file t name inode = RResult.ok (t.push name (DirectoryEntry.file inode)) ∧
    Ext4DirEntry.new inode ft (strBytes name) = none := by
  constructor
  · unfold create_file modifyParent parentPath getName
    rw [hnoslash]
    simp [hfresh]
  · unfold Ext4DirEntry.new
    rw [if_neg (by omega)]

set_option maxRecDepth 40000 in
/-- Witness for C9 (amended) at the 256-byte name. -/
theorem claim_C9_witness :
    255 < (strBytes c9name).length ∧ rsplitOnce c9name = none ∧
    Directory.nil.hasName c9name = false ∧
    create_file Directory.nil c9name 12 =
      RResult.ok (Directory.nil.push c9name (DirectoryEntry.file 12)) ∧
    Ext4DirEntry.new 12 FileType.RegularFile (strBytes c9name) = none := by
  have h := claim_C9_amended Directory.nil c9name 12 FileType.RegularFile
    (by decide) (by decide) (by decide)
  exact ⟨by decide, by decide, by decide, h.1, h.2⟩

/-! ## Claim C3: staging errors and the writer state -/

/-- The inline branch of `create_inode_with_contents` never touches the
allocator or the device. -/
theorem create_inode_small_state (st : AllocSt) (contents : List Nat) (ty : FileType)
    (h : contents.length ≤ 128) (r : AllocSt × Ext4Inode)
    (hr : create_inode_with_contents st contents ty = some r) : r.1 = st := by
  unfold create_inode_with_contents at hr
  rw [if_pos (by simpa [Ext4Inode.MAX_INLINE_SIZE, Ext4Inode.MAX_INLINE_SIZE_BLOCK,
    Ext4Inode.MAX_INLINE_SIZE_XATTR, Ext4ExtAttrEntryData.SIZE] using h)] at hr
  rcases Option.map_eq_some'.mp hr with ⟨inode, _, rfl⟩
  rfl

set_option maxRecDepth 40000 in
/-- C3 counterexample: calling `write_file` with 129 bytes of content on
an already existing path returns the staging error only after one
content block has been written to the device and the inode pool has
grown, so the error is not reported "before any output byte" and the
writer state is not unchanged. -/
theorem claim_C3_counterexample :
    (write_file (write_file (newWriter (2 ^ 37)) [] "a" 0o644).1
        (List.replicate 129 0) "a" 0o644).2 = RResult.err "path already exists" ∧
    (write_file (write_file (newWriter (2 ^ 37)) [] "a" 0o644).1
        (List.replicate 129 0) "a" 0o644).1.alloc.blockWrites =
      (write_file (newWriter (2 ^ 37)) [] "a" 0o644).1.alloc.blockWrites + 1 ∧
    (write_file (write_file (newWriter (2 ^ 37)) [] "a" 0o644).1
        (List.replicate 129 0) "a" 0o644).1.alloc.next_free =
      (write_file (newWriter (2 ^ 37)) [] "a" 0o644).1.alloc.next_free + 1 ∧
    (write_file (write_file (newWriter (2 ^ 37)) [] "a" 0o644).1
        (List.replicate 129 0) "a" 0o644).1.inodeCount =
      (write_file (newWriter (2 ^ 37)) [] "a" 0o644).1.inodeCount + 1 := by
  decide

/-- C3 (amended): when `write_file` returns a staging error (existing
path, missing or file parent), the staging tree is left unchanged — but
the inode pool has already grown by one, and only for inline-sized
contents (at most 128 bytes) are the block allocator and the device
guaranteed untouched; larger contents have already been written. -/
theorem claim_C3_amended (st st2 : WriterSt) (contents : List Nat) (path : String)
    (mode : Nat) (m : String)
    (h : write_file st contents path mode = (st2, RResult.err m)) :
    st2.tree = st.tree ∧ st2.inodeCount = st.inodeCount + 1 ∧
    st2.max_size = st.max_size ∧
    (contents.length ≤ 128 → st2.alloc = st.alloc) := by
  unfold write_file at h
  dsimp only at h
  rcases hc : create_inode_with_contents st.alloc contents FileType.RegularFile with
    _ | ⟨alloc2, inode⟩
  · rw [hc] at h
    simp at h
  · rw [hc] at h
    rcases hf : create_file st.tree path (st.inodeCount + 1) with t2 | m' | _ <;>
      rw [hf] at h <;> simp only [Prod.mk.injEq] at h
    · exact absurd h.2 (by simp)
    · obtain ⟨h1, _⟩ := h
      subst h1
      refine ⟨rfl, rfl, rfl, fun hsmall => ?_⟩
      exact create_inode_small_state st.alloc contents FileType.RegularFile hsmall _ hc
    · exact absurd h.2 (by simp)

/-- Witness for C3 (amended): writing the empty file `a` twice. -/
theorem claim_C3_witness :
    write_file (write_file (newWriter (2 ^ 37)) [] "a" 0o644).1 [] "a" 0o644 =
      ({ alloc := { next_free := 17, blockWrites := 0 }, inodeCount := 13,
         max_size := 2 ^ 37,
         tree := Directory.cons "lost+found" (DirectoryEntry.directory Directory.nil)
           (Directory.cons "a" (DirectoryEntry.file 12) Directory.nil) },
       RResult.err "path already exists") ∧
    Directory.cons "lost+found" (DirectoryEntry.directory Directory.nil)
        (Directory.cons "a" (DirectoryEntry.file 12) Directory.nil) =
      (write_file (newWriter (2 ^ 37)) [] "a" 0o644).1.tree ∧
    (13 = (write_file (newWriter (2 ^ 37)) [] "a" 0o644).1.inodeCount + 1) := by
  have h : write_file (write_file (newWriter (2 ^ 37)) [] "a" 0o644).1 [] "a" 0o644 =
      ({ alloc := { next_free := 17, blockWrites := 0 }, inodeCount := 13,
         max_size := 2 ^ 37,
         tree := Directory.cons "lost+found" (DirectoryEntry.directory Directory.nil)
           (Directory.cons "a" (DirectoryEntry.file 12) Directory.nil) },
       RResult.err "path already exists") := rfl
  have h2 := claim_C3_amended _ _ _ _ _ _ h
  exact ⟨h, h2.1 ▸ rfl, by rw [← h2.2.1]⟩

/-! ## Claim C1: the inline-data boundary -/

set_option maxRecDepth 40000 in
/-- C1 counterexample: a file of 140 bytes (inside the claimed
`60 < len <= 140` inline range) is NOT encoded inline: the encoder
allocates one data block (`next_free` advances from 17 to 18), sets the
`EXTENTS` flag `0x80000` (so the `INLINE_DATA` bit `0x10000000` is
clear) and records `i_blocks = 8`, not 0.  The code's inline ceiling is
`MAX_INLINE_SIZE = 60 + 68 = 128`, not 140. -/
theorem claim_C1_counterexample :
    (create_inode_with_contents { next_free := 17, blockWrites := 0 }
        (List.replicate 140 7) FileType.RegularFile).map
        (fun r => (r.1.next_free, r.2.i_flags, r.2.blocks)) = some (18, 0x80000, 8) ∧
    Ext4Inode.MAX_INLINE_SIZE = 128 := by
  decide

/-- C1 (amended): for every `write_file` contents with
`60 < len(contents) <= 128` (60 block-area bytes plus the 68-byte xattr
value capacity), the inode is encoded inline: `INLINE_DATA` flag set,
the first 60 bytes in the 60-byte block area, the remainder stored as
the value of the `data` extended attribute in the extra area (entry
header with value size `len - 60`, value at offset 28), no data blocks
allocated (the allocator state is returned unchanged) and `i_blocks`
zero. -/
theorem claim_C1_amended (st : AllocSt) (contents : List Nat) (ty : FileType)
    (h60 : 60 < contents.length) (h128 : contents.length ≤ 128) :
    create_inode_with_contents st contents ty =
      some (st,
        { i_mode := ty.as_mode
          i_links_count := 1
          i_size_lo := contents.length
          i_size_high := 0
          i_blocks_lo := 0
          i_blocks_high := 0
          i_flags := 0x10000000
          i_block := contents.take 60
          rest := [0x00, 0x00, 0x02, 0xEA] ++ xattrEntryBytes (contents.length - 60) ++
            [0, 0, 0, 0] ++ contents.drop 60 ++
            List.replicate (96 - 28 - (contents.length - 60)) 0 }) := by
  have htake : (contents.take 60).length = 60 := by
    simp [List.length_take]
    omega
  have hdrop : (contents.drop 60).length = contents.length - 60 := by simp
  unfold create_inode_with_contents
  rw [if_pos (by
    simp [Ext4Inode.MAX_INLINE_SIZE, Ext4Inode.MAX_INLINE_SIZE_BLOCK,
      Ext4Inode.MAX_INLINE_SIZE_XATTR, Ext4ExtAttrEntryData.SIZE]
    omega)]
  simp only [Ext4Inode.MAX_INLINE_SIZE_BLOCK, h60, if_pos]
  unfold Ext4Inode.with_inline_data
  rw [if_pos (by
    refine ⟨?_, ?_, ?_⟩
    · simp [Ext4Inode.MAX_INLINE_SIZE_BLOCK, htake]
    · simp [Ext4Inode.MAX_INLINE_SIZE_XATTR, Ext4ExtAttrEntryData.SIZE, hdrop]
      omega
    · intro hcontra
      rw [htake] at hcontra
      omega)]
  simp only [Option.map_some, Option.some.injEq, Prod.mk.injEq, true_and]
  unfold Ext4Inode.set_size Ext4Inode.set_links_count Ext4Inode.set_file_type
  simp only [htake, hdrop]
  have hlen : 60 + (contents.length - 60) = contents.length := by omega
  rw [hlen]
  have hdiv : contents.length / 2 ^ 32 = 0 := Nat.div_eq_of_lt (by omega)
  have hmod : contents.length % 2 ^ 32 = contents.length := Nat.mod_eq_of_lt (by omega)
  simp [hdiv, hmod, Ext4Inode.mk.injEq]
  omega

set_option maxRecDepth 40000 in
/-- Witness for C1 (amended) at a 100-byte file. -/
theorem claim_C1_witness :
    create_inode_with_contents { next_free := 17, blockWrites := 0 }
        (List.replicate 100 5) FileType.RegularFile =
      some ({ next_free := 17, blockWrites := 0 },
        { i_mode := FileType.RegularFile.as_mode
          i_links_count := 1
          i_size_lo := (List.replicate 100 5).length
          i_size_high := 0
          i_blocks_lo := 0
          i_blocks_high := 0
          i_flags := 0x10000000
          i_block := (List.replicate 100 5).take 60
          rest := [0x00, 0x00, 0x02, 0xEA] ++
            xattrEntryBytes ((List.replicate 100 5).length - 60) ++
            [0, 0, 0, 0] ++ (List.replicate 100 5).drop 60 ++
            List.replicate (96 - 28 - ((List.replicate 100 5).length - 60)) 0 }) :=
  claim_C1_amended { next_free := 17, blockWrites := 0 } (List.replicate 100 5)
    FileType.RegularFile (by decide) (by decide)

/-! ## Claim C7: the inline-extent boundary -/

/-- Evaluation of `create_inode_with_contents` on an all-zero content
buffer larger than the inline ceiling: `ceil(n / 4096)` blocks are
allocated and written, and the extent encoder takes over.  (Stated for
`List.replicate` so that proofs about block-sized buffers never have to
materialise them.) -/
theorem create_inode_with_contents_replicate_big (st : AllocSt) (ty : FileType) (n : Nat)
    (h : 128 < n) :
    create_inode_with_contents st (List.replicate n 0) ty =
      create_inode_with_extents
        { next_free := st.next_free + divCeil n 4096
          blockWrites := st.blockWrites + divCeil n 4096 }
        n { start := st.next_free, stop := st.next_free + divCeil n 4096 } ty := by
  unfold create_inode_with_contents write_blocks_alloc allocate write_blocks
  rw [List.length_replicate, if_neg (by
    simp [Ext4Inode.MAX_INLINE_SIZE, Ext4Inode.MAX_INLINE_SIZE_BLOCK,
      Ext4Inode.MAX_INLINE_SIZE_XATTR, Ext4ExtAttrEntryData.SIZE]
    omega)]

/-- A serialised extent leaf node occupies 12 bytes. -/
theorem extentLeaf_bytes_length (s b n i : Nat) :
    ((extentLeaf s b n i).bytes).length = 12 := by
  simp [extentLeaf, Ext4ExtentLeafNode.bytes, Ext4ExtentLeafNode.set_start, u32le, u16le]

/-- `Ext4IndirectExtents::create_block` produces one full 4096-byte
block whenever its leaf-count assertion holds. -/
theorem create_block_spec (allocation : Allocation)
    (h : 12 + divCeil (allocation.stop - allocation.start) Ext4ExtentLeafNode.MAX_LEN * 12 + 4
      ≤ 4096) :
    ∃ l, Ext4IndirectExtents.create_block allocation = some l ∧ l.length = 4096 := by
  unfold Ext4IndirectExtents.create_block
  rw [if_pos h]
  refine ⟨_, rfl, ?_⟩
  have hbody : (extentHeaderBytes (divCeil (allocation.stop - allocation.start)
      Ext4ExtentLeafNode.MAX_LEN) ((4096 - 12 - 4) / 12) 1 ++
      ((List.range (divCeil (allocation.stop - allocation.start)
        Ext4ExtentLeafNode.MAX_LEN)).map (fun i =>
          (extentLeaf allocation.start (allocation.stop - allocation.start)
            (divCeil (allocation.stop - allocation.start) Ext4ExtentLeafNode.MAX_LEN)
            i).bytes)).flatten).length =
      12 + divCeil (allocation.stop - allocation.start) Ext4ExtentLeafNode.MAX_LEN * 12 := by
    have hmap : List.map (List.length ∘ fun i =>
        (extentLeaf allocation.start (allocation.stop - allocation.start)
          (divCeil (allocation.stop - allocation.start) Ext4ExtentLeafNode.MAX_LEN) i).bytes)
        (List.range (divCeil (allocation.stop - allocation.start)
          Ext4ExtentLeafNode.MAX_LEN)) =
        List.replicate (divCeil (allocation.stop - allocation.start)
          Ext4ExtentLeafNode.MAX_LEN) 12 := by
      apply List.eq_replicate_iff.mpr
      refine ⟨by simp, fun b hb => ?_⟩
      obtain ⟨i, _, hib⟩ := List.mem_map.mp hb
      simp only [Function.comp_apply] at hib
      rw [← hib]
      exact extentLeaf_bytes_length _ _ _ _
    rw [List.length_append, List.length_flatten, List.map_map, hmap, List.sum_replicate,
      smul_eq_mul]
    simp [extentHeaderBytes, u16le, u32le]
  simp only [List.length_append, hbody, List.length_replicate, u32le, List.length_cons,
    List.length_nil]
  omega

set_option maxRecDepth 40000 in
/-- C7: a file of exactly `4 * 32768 * 4096` bytes is encoded with
inline extents: exactly its `131072` data blocks are allocated and
written (no extent-tree block), the block area starts with a depth-0
extent header carrying 4 leaves, and `i_blocks` is `8 * 131072`
sectors.  A file one block larger allocates exactly one extra block (the
extent tree block) beyond its `131073` data blocks, the block area
starts with a depth-1 header carrying one internal node, and `i_blocks`
is `8 * 131073 + 8` — 8 sectors more than 8 times the data-block
count. -/
theorem claim_C7_inline_extent_boundary (st : AllocSt) :
    ((create_inode_with_contents st (List.replicate (4 * 32768 * 4096) 0)
        FileType.RegularFile).map (fun r =>
          (r.1.next_free, r.1.blockWrites, r.2.i_flags, r.2.blocks, r.2.i_block.take 12)) =
      some (st.next_free + 131072, st.blockWrites + 131072, 0x80000, 8 * 131072,
        extentHeaderBytes 4 4 0)) ∧
    ((create_inode_with_contents st (List.replicate (4 * 32768 * 4096 + 4096) 0)
        FileType.RegularFile).map (fun r =>
          (r.1.next_free, r.1.blockWrites, r.2.i_flags, r.2.blocks, r.2.i_block.take 12)) =
      some (st.next_free + 131073 + 1, st.blockWrites + 131073 + 1, 0x80000,
        8 * 131073 + 8, extentHeaderBytes 1 4 1)) := by
  have hdc1 : divCeil (4 * 32768 * 4096) 4096 = 131072 := by decide
  have hdc2 : divCeil (4 * 32768 * 4096 + 4096) 4096 = 131073 := by decide
  constructor
  · rw [create_inode_with_contents_replicate_big st FileType.RegularFile _ (by decide), hdc1]
    simp only [create_inode_with_extents, write_blocks_alloc, allocate, write_blocks,
      divCeil, Ext4InlineExtents.new, Ext4InlineExtents.MAX_INLINE_BLOCKS,
      Ext4ExtentLeafNode.MAX_LEN, extentLeaf, Ext4ExtentLeafNode.set_start,
      Ext4Inode.update_size, Ext4Inode.set_size, Ext4Inode.set_blocks,
      Ext4Inode.set_file_type, Ext4Inode.set_links_count, Ext4Inode.blocks,
      Ext4InlineExtents.bytes, Ext4ExtentLeafNode.bytes, extentHeaderBytes, u16le, u32le,
      Nat.add_sub_cancel_left, Option.map_some]
    norm_num [List.range_succ]
  · rw [create_inode_with_contents_replicate_big st FileType.RegularFile _ (by decide), hdc2]
    unfold create_inode_with_extents
    have hblocks : ({ start := st.next_free, stop := st.next_free + 131073 } :
        Allocation).stop - ({ start := st.next_free, stop := st.next_free + 131073 } :
        Allocation).start = 131073 := by
      simp
    rw [if_neg (by rw [hblocks]; decide)]
    obtain ⟨l, hl, hlen⟩ := create_block_spec
      { start := st.next_free, stop := st.next_free + 131073 }
      (by rw [hblocks]; decide)
    rw [hl]
    simp only [write_blocks_alloc, allocate, write_blocks, hlen]
    simp only [divCeil, Ext4Inode.update_size, Ext4Inode.set_size, Ext4Inode.set_blocks,
      Ext4Inode.set_file_type, Ext4Inode.set_links_count, Ext4Inode.blocks,
      ext4IndirectExtentsBytes, extentInternalNodeBytes, extentHeaderBytes, u16le, u32le,
      Option.map_some]
    norm_num

/-! ## Claim C8: directory link counts -/

/-- The `file_type` of an entry built by `Ext4DirEntry::new`. -/
theorem Ext4DirEntry.new_file_type (i : Nat) (ft : FileType) (nm : List Nat)
    (e : Ext4DirEntry) (h : Ext4DirEntry.new i ft nm = some e) :
    e.file_type = ft.as_directory_entry_type := by
  unfold Ext4DirEntry.new at h
  split at h
  · cases h
    rfl
  · cases h

/-- `create_directory_inode` on an entry list starting with two
directory entries (always `.` and `..`) sets the link count to two plus
the number of further directory entries. -/
theorem create_directory_inode_links (st : AllocSt) (e0 e1 : Ext4DirEntry)
    (rest : List Ext4DirEntry) (allow_inline : Bool) (st1 : AllocSt) (inode : Ext4Inode)
    (h0 : e0.is_directory = true) (h1 : e1.is_directory = true)
    (h : create_directory_inode st (e0 :: e1 :: rest) allow_inline =
      RResult.ok (st1, inode)) :
    inode.i_links_count = 2 + rest.countP (fun e => e.is_directory) := by
  unfold create_directory_inode at h
  rcases hA : (match create_directory_inode_inline (e0 :: e1 :: rest) with
    | RResult.panics => RResult.panics
    | RResult.err m => RResult.err m
    | RResult.ok inlineResult =>
      match inlineResult, allow_inline with
      | some inode, true => RResult.ok (st, inode)
      | _, _ =>
        match create_directory_inode_with_blocks st (e0 :: e1 :: rest) with
        | some r => RResult.ok r
        | none => RResult.panics) with st1' | m | _ <;> rw [hA] at h <;> dsimp only at h
  · rcases st1' with ⟨stx, inode0⟩
    by_cases hg : 2 ≤ (e0 :: e1 :: rest).countP (fun e => e.is_directory) ∧
        (e0 :: e1 :: rest).countP (fun e => e.is_directory) ≤ 65535
    · rw [if_pos hg] at h
      simp only [RResult.ok.injEq, Prod.mk.injEq] at h
      obtain ⟨-, hinode⟩ := h
      subst hinode
      simp only [Ext4Inode.set_mode, Ext4Inode.set_links_count]
      have hc : (e0 :: e1 :: rest).countP (fun e => e.is_directory) =
          rest.countP (fun e => e.is_directory) + 2 := by
        simp [List.countP_cons, h0, h1]
      rw [hc]
      omega
    · rw [if_neg hg] at h
      exact absurd h (by simp)
  · exact absurd h (by simp)
  · exact absurd h (by simp)

/-- The entry list `walkChildren` builds for the children of a staged
directory contains exactly one directory-typed entry per immediate
subdirectory. -/
theorem walkChildren_countP (N : Nat) :
    ∀ (d : Directory), dirSize d ≤ N →
    ∀ (st : HierSt) (inodeNum : Nat) (st2 : HierSt) (es : List Ext4DirEntry),
    walkChildren st d inodeNum = some (st2, es) →
    es.countP (fun e => e.is_directory) = countDirChildren d := by
  induction N with
  | zero =>
    intro d hd st inodeNum st2 es h
    cases d with
    | nil =>
      simp only [walkChildren, Option.some.injEq, Prod.mk.injEq] at h
      obtain ⟨-, rfl⟩ := h
      rfl
    | cons name e rest =>
      cases e <;> simp [dirSize] at hd
  | succ N ih =>
    intro d hd st inodeNum st2 es h
    cases d with
    | nil =>
      simp only [walkChildren, Option.some.injEq, Prod.mk.injEq] at h
      obtain ⟨-, rfl⟩ := h
      rfl
    | cons name child rest =>
      cases child with
      | file i =>
        simp only [walkChildren] at h
        rcases he : Ext4DirEntry.new i FileType.RegularFile (strBytes name) with _ | e <;>
          rw [he] at h
        · simp at h
        · simp only [Option.bind_eq_bind, Option.some_bind] at h
          rcases hrest : walkChildren st rest inodeNum with _ | ⟨st2', es'⟩ <;>
            rw [hrest] at h
          · exact Option.noConfusion h
          · simp only [Option.bind_eq_bind, Option.some_bind, Option.some.injEq, Prod.mk.injEq] at h
            obtain ⟨-, rfl⟩ := h
            have hft := Ext4DirEntry.new_file_type _ _ _ _ he
            have hnd : e.is_directory = false := by
              simp [Ext4DirEntry.is_directory, hft, FileType.as_directory_entry_type]
            have hih := ih rest (by simp [dirSize] at hd; omega) st inodeNum st2' es' hrest
            simp [List.countP_cons, hnd, countDirChildren, hih]
      | directory sub =>
        have hsub : dirSize sub ≤ N := by simp [dirSize] at hd; omega
        have hrest2 : dirSize rest ≤ N := by simp [dirSize] at hd; omega
        simp only [walkChildren] at h
        rcases hsplit : (if inodeNum = 2 ∧ name = "lost+found" then (11, st)
          else (st.inodeCount + 1, { st with inodeCount := st.inodeCount + 1 })) with
          ⟨entryNum, st1⟩
        rw [hsplit] at h
        dsimp only at h
        rcases hdot : Ext4DirEntry.new entryNum FileType.Directory (strBytes ".") with
          _ | dotE <;> rw [hdot] at h
        · exact Option.noConfusion h
        · simp only [Option.bind_eq_bind, Option.some_bind] at h
          rcases hdd : Ext4DirEntry.new inodeNum FileType.Directory (strBytes "..") with
            _ | ddE <;> rw [hdd] at h
          · exact Option.noConfusion h
          · simp only [Option.bind_eq_bind, Option.some_bind] at h
            rcases hw : walkChildren st1 sub entryNum with _ | ⟨stw, subEs⟩ <;>
              rw [hw] at h
            · exact Option.noConfusion h
            · simp only [Option.bind_eq_bind, Option.some_bind] at h
              rcases hcd : create_directory_inode stw.alloc ([dotE, ddE] ++ subEs)
                  (entryNum ≠ 11) with ⟨alloc3, di⟩ | m | _ <;> rw [hcd] at h
              · dsimp only at h
                rcases hne : Ext4DirEntry.new entryNum FileType.Directory (strBytes name)
                  with _ | e <;> rw [hne] at h
                · exact Option.noConfusion h
                · simp only [Option.bind_eq_bind, Option.some_bind] at h
                  rcases hrest : walkChildren { stw with alloc := alloc3 } rest inodeNum
                    with _ | ⟨st4, es'⟩ <;> rw [hrest] at h
                  · exact Option.noConfusion h
                  · simp only [Option.bind_eq_bind, Option.some_bind, Option.some.injEq, Prod.mk.injEq] at h
                    obtain ⟨-, rfl⟩ := h
                    have hft := Ext4DirEntry.new_file_type _ _ _ _ hne
                    have hdir : e.is_directory = true := by
                      simp [Ext4DirEntry.is_directory, hft, FileType.as_directory_entry_type]
                    have hih := ih rest hrest2 _ inodeNum st4 es' hrest
                    simp [List.countP_cons, hdir, countDirChildren, hih]
                    omega
              · exact Option.noConfusion h
              · exact Option.noConfusion h

/-- C8: every directory inode built by the hierarchy walk has
`links_count = 2 + number of immediate subdirectories`.  First part:
`create_directory_inode` (whose entry list always starts with the `.`
and `..` directory entries) sets the link count to two plus the number
of directory entries after them.  Second part: the entry list the walk
builds for a staged directory contains exactly one directory-typed
entry per immediate subdirectory (`lost+found` under the root
included), so every directory inode emitted by the walk satisfies the
claimed invariant. -/
theorem claim_C8_directory_links :
    (∀ (st : AllocSt) (e0 e1 : Ext4DirEntry) (rest : List Ext4DirEntry)
      (allow_inline : Bool) (st1 : AllocSt) (inode : Ext4Inode),
      e0.is_directory = true → e1.is_directory = true →
      create_directory_inode st (e0 :: e1 :: rest) allow_inline = RResult.ok (st1, inode) →
      inode.i_links_count = 2 + rest.countP (fun e => e.is_directory)) ∧
    (∀ (st : HierSt) (d : Directory) (inodeNum : Nat) (st2 : HierSt)
      (es : List Ext4DirEntry), walkChildren st d inodeNum = some (st2, es) →
      es.countP (fun e => e.is_directory) = countDirChildren d) :=
  ⟨create_directory_inode_links,
   fun st d inodeNum st2 es h => walkChildren_countP (dirSize d) d le_rfl st inodeNum st2 es h⟩

/-- Witness for C8: a concrete `.`/`..`-only entry list yields an inline
directory inode with link count 2, and `walkChildren` on the empty
staging directory yields an entry list with no directory entries. -/
theorem claim_C8_witness :
    create_directory_inode { next_free := 0, blockWrites := 0 }
      [⟨5, 12, 1, 2, [46]⟩, ⟨2, 12, 2, 2, [46, 46]⟩] true =
      RResult.ok ({ next_free := 0, blockWrites := 0 }, c8inode) ∧
    c8inode.i_links_count =
      2 + ([] : List Ext4DirEntry).countP (fun e => e.is_directory) ∧
    walkChildren { alloc := { next_free := 0, blockWrites := 0 }, inodeCount := 11 }
      Directory.nil 2 =
      some ({ alloc := { next_free := 0, blockWrites := 0 }, inodeCount := 11 }, []) ∧
    ([] : List Ext4DirEntry).countP (fun e => e.is_directory) =
      countDirChildren Directory.nil := by
  have hrun : create_directory_inode { next_free := 0, blockWrites := 0 }
      [⟨5, 12, 1, 2, [46]⟩, ⟨2, 12, 2, 2, [46, 46]⟩] true =
      RResult.ok ({ next_free := 0, blockWrites := 0 }, c8inode) := by decide
  have hw : walkChildren { alloc := { next_free := 0, blockWrites := 0 }, inodeCount := 11 }
      Directory.nil 2 =
      some ({ alloc := { next_free := 0, blockWrites := 0 }, inodeCount := 11 }, []) := rfl
  exact ⟨hrun,
    claim_C8_directory_links.1 _ _ _ _ _ _ _ (by decide) (by decide) hrun,
    hw,
    claim_C8_directory_links.2 _ _ _ _ _ hw⟩

/-! ## Claim C5: the inline directory distribution -/

/-- Invariants of the distribution loop of `create_directory_inode_inline`
for arbitrary capacities and accumulators: area sums stay within the
capacities (plus the 8-byte meta reserve), the two output lists extend
the accumulators by sublists of the input, and every input entry is
placed. -/
theorem distributeInline_spec (bs xs : Nat) (l : List Ext4DirEntry) :
    ∀ (bAcc xAcc b x : List Ext4DirEntry),
    distributeInline bs xs l bAcc xAcc = some (b, x) →
    (sumRec bAcc + 8 ≤ bs → sumRec b + 8 ≤ bs) ∧
    (sumRec xAcc + 8 ≤ xs → sumRec x + 8 ≤ xs) ∧
    b.length + x.length = bAcc.length + xAcc.length + l.length ∧
    (∃ b2, b = bAcc ++ b2 ∧ b2.Sublist l) ∧
    (∃ x2, x = xAcc ++ x2 ∧ x2.Sublist l) := by
  induction l with
  | nil =>
    intro bAcc xAcc b x h
    simp only [distributeInline, Option.some.injEq, Prod.mk.injEq] at h
    obtain ⟨rfl, rfl⟩ := h
    exact ⟨id, id, by simp, ⟨[], by simp, by simp⟩, ⟨[], by simp, by simp⟩⟩
  | cons e rest ih =>
    intro bAcc xAcc b x h
    simp only [distributeInline] at h
    by_cases hb : inlineFits bs bAcc e = true
    · rw [if_pos hb] at h
      obtain ⟨h1, h2, h3, ⟨b2, hb2, hs2⟩, ⟨x2, hx2, hxs⟩⟩ := ih (bAcc ++ [e]) xAcc b x h
      simp only [inlineFits, decide_eq_true_eq] at hb
      refine ⟨?_, h2, ?_, ?_, ?_⟩
      · intro hle
        have hsum : sumRec (bAcc ++ [e]) = sumRec bAcc + e.rec_len := by simp [sumRec]
        exact h1 (by omega)
      · simp only [List.length_append, List.length_cons, List.length_nil, List.length_singleton] at h3 ⊢
        omega
      · refine ⟨e :: b2, ?_, hs2.cons₂ e⟩
        simp [hb2]
      · exact ⟨x2, hx2, hxs.cons e⟩
    · rw [if_neg hb] at h
      by_cases hx : inlineFits xs xAcc e = true
      · rw [if_pos hx] at h
        obtain ⟨h1, h2, h3, ⟨b2, hb2, hs2⟩, ⟨x2, hx2, hxs⟩⟩ := ih bAcc (xAcc ++ [e]) b x h
        simp only [inlineFits, decide_eq_true_eq] at hx
        refine ⟨h1, ?_, ?_, ?_, ?_⟩
        · intro hle
          have hsum : sumRec (xAcc ++ [e]) = sumRec xAcc + e.rec_len := by simp [sumRec]
          exact h2 (by omega)
        · simp only [List.length_append, List.length_cons, List.length_nil, List.length_singleton] at h3 ⊢
          omega
        · exact ⟨b2, hb2, hs2.cons e⟩
        · refine ⟨e :: x2, ?_, hxs.cons₂ e⟩
          simp [hx2]
      · rw [if_neg hx] at h
        exact Option.noConfusion h

/-- C5 counterexample: with the block area already holding the 32-byte
entry, the 24-byte entry overflows into the xattr area, but the later
12-byte entry still fits the block area, so a block-area entry follows
an xattr-area entry in input order — the distribution is greedy per
area, not a clean split.  Also the xattr area holds up to 68 bytes of
entries, not 80. -/
theorem claim_C5_counterexample :
    distributeInline (Ext4Inode.MAX_INLINE_SIZE_BLOCK - 4) Ext4Inode.MAX_INLINE_SIZE_XATTR
        [c5e1, c5e2, c5e3] [] [] = some ([c5e1, c5e3], [c5e2]) ∧
    [c5e1, c5e3] ++ [c5e2] ≠ [c5e1, c5e2, c5e3] ∧
    Ext4Inode.MAX_INLINE_SIZE_XATTR = 68 := by decide

/-- C5 amended: the inline directory encoder skips `.` and `..`,
distributes the remaining entries greedily in input order — each entry
goes to the 56-byte block area if it still fits there, else to the
68-byte (not 80-byte) xattr area, with no guarantee that block-area
entries precede xattr-area entries in input order — the two areas
receive disjoint sublists covering all entries within their capacities,
the parent inode number fills the leading 4 bytes of the block area of
any inline-encoded inode, and inline encoding reports does-not-fit
(making the caller fall back to linear blocks) exactly when the
distribution loop fails. -/
theorem claim_C5_amended :
    (∀ (l b x : List Ext4DirEntry),
      distributeInline (Ext4Inode.MAX_INLINE_SIZE_BLOCK - 4) Ext4Inode.MAX_INLINE_SIZE_XATTR
          l [] [] = some (b, x) →
      sumRec b + 8 ≤ Ext4Inode.MAX_INLINE_SIZE_BLOCK - 4 ∧
      sumRec x + 8 ≤ Ext4Inode.MAX_INLINE_SIZE_XATTR ∧
      b.length + x.length = l.length ∧ b.Sublist l ∧ x.Sublist l) ∧
    (∀ (dot parent : Ext4DirEntry) (rest : List Ext4DirEntry) (inode : Ext4Inode),
      create_directory_inode_inline (dot :: parent :: rest) = RResult.ok (some inode) →
      inode.i_block.take 4 = u32le parent.inode ∧ inode.i_flags = 0x10000000) ∧
    (∀ (dot parent : Ext4DirEntry) (rest : List Ext4DirEntry),
      create_directory_inode_inline (dot :: parent :: rest) = RResult.ok none ↔
      distributeInline (Ext4Inode.MAX_INLINE_SIZE_BLOCK - 4) Ext4Inode.MAX_INLINE_SIZE_XATTR
        rest [] [] = none) ∧
    Ext4Inode.MAX_INLINE_SIZE_BLOCK - 4 = 56 ∧ Ext4Inode.MAX_INLINE_SIZE_XATTR = 68 := by
  refine ⟨?_, ?_, ?_, by decide, by decide⟩
  · intro l b x h
    obtain ⟨h1, h2, h3, ⟨b2, hb2, hs⟩, ⟨x2, hx2, hxs⟩⟩ :=
      distributeInline_spec (Ext4Inode.MAX_INLINE_SIZE_BLOCK - 4)
        Ext4Inode.MAX_INLINE_SIZE_XATTR l [] [] b x h
    simp only [List.nil_append] at hb2 hx2
    subst hb2
    subst hx2
    simp only [List.length_nil, Nat.zero_add] at h3
    exact ⟨h1 (by decide), h2 (by decide), h3, hs, hxs⟩
  · intro dot parent rest inode h
    have hred : create_directory_inode_inline (dot :: parent :: rest) =
        (match distributeInline (Ext4Inode.MAX_INLINE_SIZE_BLOCK - 4)
            Ext4Inode.MAX_INLINE_SIZE_XATTR rest [] [] with
        | none => RResult.ok none
        | some (blockEs, xattrEs) =>
          match Ext4Inode.with_inline_data
              (u32le parent.inode ++
                inlineBlockBytes (Ext4Inode.MAX_INLINE_SIZE_BLOCK - 4) blockEs)
              (inlineBlockBytes Ext4Inode.MAX_INLINE_SIZE_XATTR xattrEs)
              FileType.Directory with
          | some i => RResult.ok (some i)
          | none => RResult.panics) := rfl
    rw [hred] at h
    cases hd : distributeInline (Ext4Inode.MAX_INLINE_SIZE_BLOCK - 4)
        Ext4Inode.MAX_INLINE_SIZE_XATTR rest [] [] with
    | none =>
      rw [hd] at h
      simp at h
    | some p =>
      rcases p with ⟨bEs, xEs⟩
      rw [hd] at h
      dsimp only at h
      cases hw : Ext4Inode.with_inline_data
          (u32le parent.inode ++
            inlineBlockBytes (Ext4Inode.MAX_INLINE_SIZE_BLOCK - 4) bEs)
          (inlineBlockBytes Ext4Inode.MAX_INLINE_SIZE_XATTR xEs)
          FileType.Directory with
      | none =>
        rw [hw] at h
        exact RResult.noConfusion h
      | some i =>
        rw [hw] at h
        have hi : i = inode := by simpa using h
        subst hi
        unfold Ext4Inode.with_inline_data at hw
        split at hw
        · simp only [Option.some.injEq] at hw
          subst hw
          constructor
          · simp [u32le]
          · rfl
        · exact Option.noConfusion hw
  · intro dot parent rest
    have hred : create_directory_inode_inline (dot :: parent :: rest) =
        (match distributeInline (Ext4Inode.MAX_INLINE_SIZE_BLOCK - 4)
            Ext4Inode.MAX_INLINE_SIZE_XATTR rest [] [] with
        | none => RResult.ok none
        | some (blockEs, xattrEs) =>
          match Ext4Inode.with_inline_data
              (u32le parent.inode ++
                inlineBlockBytes (Ext4Inode.MAX_INLINE_SIZE_BLOCK - 4) blockEs)
              (inlineBlockBytes Ext4Inode.MAX_INLINE_SIZE_XATTR xattrEs)
              FileType.Directory with
          | some i => RResult.ok (some i)
          | none => RResult.panics) := rfl
    rw [hred]
    cases hd : distributeInline (Ext4Inode.MAX_INLINE_SIZE_BLOCK - 4)
        Ext4Inode.MAX_INLINE_SIZE_XATTR rest [] [] with
    | none => simp
    | some p =>
      rcases p with ⟨bEs, xEs⟩
      dsimp only
      cases hw : Ext4Inode.with_inline_data
          (u32le parent.inode ++
            inlineBlockBytes (Ext4Inode.MAX_INLINE_SIZE_BLOCK - 4) bEs)
          (inlineBlockBytes Ext4Inode.MAX_INLINE_SIZE_XATTR xEs)
          FileType.Directory with
      | none => simp
      | some i => simp

/-- Witness for C5: the amended theorem applied to the three-entry
distribution and to a concrete inline directory inode. -/
theorem claim_C5_witness :
    (sumRec [c5e1, c5e3] + 8 ≤ Ext4Inode.MAX_INLINE_SIZE_BLOCK - 4 ∧
     sumRec [c5e2] + 8 ≤ Ext4Inode.MAX_INLINE_SIZE_XATTR ∧
     [c5e1, c5e3].length + [c5e2].length = [c5e1, c5e2, c5e3].length ∧
     [c5e1, c5e3].Sublist [c5e1, c5e2, c5e3] ∧ [c5e2].Sublist [c5e1, c5e2, c5e3]) ∧
    c5inode.i_block.take 4 = u32le 2 ∧ c5inode.i_flags = 0x10000000 := by
  have h1 := claim_C5_amended.1 [c5e1, c5e2, c5e3] [c5e1, c5e3] [c5e2] (by decide)
  have h2 := claim_C5_amended.2.1 ⟨5, 12, 1, 2, [46]⟩ ⟨2, 12, 2, 2, [46, 46]⟩ []
    c5inode (by decide)
  exact ⟨h1, h2⟩

/-! ## Claim C6: the superblock's `inodes_count` -/

/-- `write_file` on an all-zero buffer of more than 128 bytes needing at
most `4 * 32768` content blocks: the allocator advances by exactly the
content blocks (inline extents, no extent-tree block), the inode pool
grows by one, and the staging tree gains the path when staging
succeeds. -/
theorem write_file_replicate_big (st : WriterSt) (path : String) (mode n : Nat)
    (h : 128 < n) (h2 : divCeil n 4096 ≤ Ext4InlineExtents.MAX_INLINE_BLOCKS) :
    (write_file st (List.replicate n 0) path mode).1 =
      { alloc := { next_free := st.alloc.next_free + divCeil n 4096
                   blockWrites := st.alloc.blockWrites + divCeil n 4096 }
        inodeCount := st.inodeCount + 1
        max_size := st.max_size
        tree := match create_file st.tree path (st.inodeCount + 1) with
                | RResult.ok t2 => t2
                | _ => st.tree } := by
  unfold write_file
  dsimp only
  rw [create_inode_with_contents_replicate_big st.alloc FileType.RegularFile n h]
  unfold create_inode_with_extents
  dsimp only
  rw [Nat.add_sub_cancel_left, if_pos h2]
  unfold Ext4InlineExtents.new
  dsimp only
  rw [Nat.add_sub_cancel_left, if_pos h2]
  dsimp only
  cases hcf : create_file st.tree path (st.inodeCount + 1) <;> rfl

/-- `create_directory_inode_with_blocks` when the entries pack into one
linear directory block: one block is allocated and written, and some
inode is produced. -/
theorem create_directory_inode_with_blocks_one (st : AllocSt) (es b : List Ext4DirEntry)
    (hlin : linearDirBlocks es = some [b]) :
    ∃ inode, create_directory_inode_with_blocks st es =
      some ({ next_free := st.next_free + 1, blockWrites := st.blockWrites + 1 }, inode) := by
  unfold create_directory_inode_with_blocks
  rw [hlin]
  dsimp only
  rw [show ([b] : List (List Ext4DirEntry)).length * 4096 = 4096 from by simp]
  rw [create_inode_with_contents_replicate_big st FileType.Directory 4096 (by norm_num)]
  rw [show divCeil 4096 4096 = 1 from by decide]
  unfold create_inode_with_extents
  dsimp only
  rw [Nat.add_sub_cancel_left,
    if_pos (show (1:Nat) ≤ Ext4InlineExtents.MAX_INLINE_BLOCKS from by decide)]
  unfold Ext4InlineExtents.new
  dsimp only
  rw [Nat.add_sub_cancel_left,
    if_pos (show (1:Nat) ≤ Ext4InlineExtents.MAX_INLINE_BLOCKS from by decide)]
  exact ⟨_, rfl⟩

/-- `create_directory_inode` with inline encoding succeeding but
disallowed (`lost+found`): the linear-block path runs, allocating one
block. -/
theorem create_directory_inode_blocks_of_inline_some (st : AllocSt)
    (es : List Ext4DirEntry) (inl : Ext4Inode)
    (hinl : create_directory_inode_inline es = RResult.ok (some inl))
    (b : List Ext4DirEntry) (hlin : linearDirBlocks es = some [b])
    (hcnt : 2 ≤ es.countP (fun e => e.is_directory) ∧
      es.countP (fun e => e.is_directory) ≤ 65535) :
    ∃ inode, create_directory_inode st es false =
      RResult.ok ({ next_free := st.next_free + 1, blockWrites := st.blockWrites + 1 },
        inode) := by
  obtain ⟨i, hi⟩ := create_directory_inode_with_blocks_one st es b hlin
  unfold create_directory_inode
  rw [hinl]
  dsimp only
  rw [hi]
  dsimp only
  rw [if_pos hcnt]
  exact ⟨_, rfl⟩

/-- `create_directory_inode` when inline encoding does not fit: the
linear-block path runs regardless of `allow_inline`, allocating one
block. -/
theorem create_directory_inode_blocks_of_inline_none (st : AllocSt)
    (es : List Ext4DirEntry)
    (hinl : create_directory_inode_inline es = RResult.ok none) (ai : Bool)
    (b : List Ext4DirEntry) (hlin : linearDirBlocks es = some [b])
    (hcnt : 2 ≤ es.countP (fun e => e.is_directory) ∧
      es.countP (fun e => e.is_directory) ≤ 65535) :
    ∃ inode, create_directory_inode st es ai =
      RResult.ok ({ next_free := st.next_free + 1, blockWrites := st.blockWrites + 1 },
        inode) := by
  obtain ⟨i, hi⟩ := create_directory_inode_with_blocks_one st es b hlin
  unfold create_directory_inode
  rw [hinl]
  cases ai <;> dsimp only <;> rw [hi] <;> dsimp only <;> rw [if_pos hcnt] <;>
    exact ⟨_, rfl⟩

/-- One step of `walkChildren` over the root's `lost+found` child:
inode 11 is reserved for it, its directory inode is written without
inline encoding, and the walk continues over the remaining children. -/
theorem walkChildren_lostfound (st stw st4 : HierSt) (sub rest : Directory)
    (subEs es : List Ext4DirEntry) (alloc3 : AllocSt) (di : Ext4Inode)
    (lfE : Ext4DirEntry)
    (hsub : walkChildren st sub 11 = some (stw, subEs))
    (hcd : create_directory_inode stw.alloc
      ([⟨11, 12, 1, 2, [46]⟩, ⟨2, 12, 2, 2, [46, 46]⟩] ++ subEs) false =
      RResult.ok (alloc3, di))
    (he : Ext4DirEntry.new 11 FileType.Directory (strBytes "lost+found") = some lfE)
    (hrest : walkChildren { stw with alloc := alloc3 } rest 2 = some (st4, es)) :
    walkChildren st (Directory.cons "lost+found" (DirectoryEntry.directory sub) rest) 2 =
      some (st4, lfE :: es) := by
  simp only [walkChildren, and_self, ite_true]
  rw [show Ext4DirEntry.new 11 FileType.Directory (strBytes ".") =
    some ⟨11, 12, 1, 2, [46]⟩ from by decide]
  simp only [Option.bind_eq_bind, Option.some_bind]
  rw [show Ext4DirEntry.new 2 FileType.Directory (strBytes "..") =
    some ⟨2, 12, 2, 2, [46, 46]⟩ from by decide]
  simp only [Option.some_bind]
  rw [hsub]
  simp only [Option.some_bind]
  rw [show (decide ((11:Nat) ≠ 11)) = false from rfl]
  rw [hcd]
  dsimp only
  rw [he]
  simp only [Option.some_bind]
  rw [hrest]
  simp only [Option.some_bind]

/-- The hierarchy walk on the `c6full` staging tree: the `lost+found`
directory inode takes one block, the 23 files contribute entries only,
and the root directory inode takes one further block. -/
theorem c6_hier :
    write_hierarchy_to_inodes
      { alloc := { next_free := 65526, blockWrites := 65509 }, inodeCount := 34 }
      (Directory.cons "lost+found" (DirectoryEntry.directory Directory.nil) c6tail) 2 2 =
      some { alloc := { next_free := 65528, blockWrites := 65511 }, inodeCount := 34 } := by
  obtain ⟨lfInode, hlf⟩ := create_directory_inode_blocks_of_inline_some
    { next_free := 65526, blockWrites := 65509 }
    [⟨11, 12, 1, 2, [46]⟩, ⟨2, 12, 2, 2, [46, 46]⟩] c5inode (by decide)
    [⟨11, 12, 1, 2, [46]⟩, ⟨2, 12, 2, 2, [46, 46]⟩] (by decide) (by decide)
  have htail : walkChildren
      { alloc := { next_free := 65527, blockWrites := 65510 }, inodeCount := 34 } c6tail 2 =
      some ({ alloc := { next_free := 65527, blockWrites := 65510 }, inodeCount := 34 },
        c6tailEntries) := rfl
  have hwalk := walkChildren_lostfound
    { alloc := { next_free := 65526, blockWrites := 65509 }, inodeCount := 34 }
    { alloc := { next_free := 65526, blockWrites := 65509 }, inodeCount := 34 }
    { alloc := { next_free := 65527, blockWrites := 65510 }, inodeCount := 34 }
    Directory.nil c6tail [] c6tailEntries
    { next_free := 65527, blockWrites := 65510 } lfInode c6lfEntry
    rfl (by simp only [List.append_nil]; exact hlf) (by decide) htail
  obtain ⟨rootInode, hroot⟩ := create_directory_inode_blocks_of_inline_none
    { next_free := 65527, blockWrites := 65510 }
    ([⟨2, 12, 1, 2, [46]⟩, ⟨2, 12, 2, 2, [46, 46]⟩] ++ c6lfEntry :: c6tailEntries)
    (by decide) (decide ((2:Nat) ≠ 11))
    ([⟨2, 12, 1, 2, [46]⟩, ⟨2, 12, 2, 2, [46, 46]⟩] ++ c6lfEntry :: c6tailEntries)
    (by decide) (by decide)
  unfold write_hierarchy_to_inodes
  rw [show Ext4DirEntry.new 2 FileType.Directory (strBytes ".") =
    some ⟨2, 12, 1, 2, [46]⟩ from by decide]
  simp only [Option.bind_eq_bind, Option.some_bind]
  rw [show Ext4DirEntry.new 2 FileType.Directory (strBytes "..") =
    some ⟨2, 12, 2, 2, [46, 46]⟩ from by decide]
  simp only [Option.some_bind]
  rw [hwalk]
  simp only [Option.some_bind]
  rw [hroot]

set_option maxRecDepth 100000 in
/-- The writer after the big 65509-block file, in explicit form: the
65509 content blocks were allocated and written, and the staging tree
holds `lost+found` plus the 23 files. -/
theorem c6_full_eq : (write_file c6small (List.replicate (65509 * 4096) 0) "big" 0o644).1 =
    { alloc := { next_free := 65526, blockWrites := 65509 }
      inodeCount := 34
      max_size := 2 ^ 37
      tree := Directory.cons "lost+found" (DirectoryEntry.directory Directory.nil)
        c6tail } := by
  rw [write_file_replicate_big c6small "big" 0o644 (65509 * 4096) (by norm_num)
    (by decide)]
  rfl

set_option maxRecDepth 100000 in
/-- `finalize` on the explicit form of the writer after the big
file. -/
theorem c6_finalize_tail : finalize
    { alloc := { next_free := 65526, blockWrites := 65509 }
      inodeCount := 34
      max_size := 2 ^ 37
      tree := Directory.cons "lost+found" (DirectoryEntry.directory Directory.nil)
        c6tail } = RResult.ok c6out := by
  unfold finalize
  dsimp only
  rw [c6_hier]
  rfl

/-- `finalize` on the writer reached by staging 22 small files and one
65509-block file returns the outputs `c6out`. -/
theorem c6_finalize :
    finalize (write_file c6small (List.replicate (65509 * 4096) 0) "big" 0o644).1 =
      RResult.ok c6out := by
  rw [c6_full_eq]
  exact c6_finalize_tail

/-- C6 counterexample: on the writer reached by staging 22 empty files
and one 65509-block file under `max_size = 2^37`, `finalize` succeeds
with two block groups emitted and 32 inodes per group, so 64 inode
records are written — but the final block count 65537 spills one block
into a third group, and the superblock's `inodes_count` is recomputed
from the final block count as `ceil(65537 / 32768) * 32 = 96`, which
differs from `block_groups_count * inodes_per_group = 64` for the
emitted groups. -/
theorem claim_C6_counterexample :
    finalize (write_file c6small (List.replicate (65509 * 4096) 0) "big" 0o644).1 =
      RResult.ok c6out ∧
    c6out.inodeRecordsWritten = c6out.groupsEmitted * c6out.inodesPerGroup ∧
    c6out.inodesCountSb ≠ c6out.groupsEmitted * c6out.inodesPerGroup :=
  ⟨c6_finalize, by decide, by decide⟩

/-- C6 amended: whenever `finalize` returns `Ok`, the number of inode
records written to the inode tables equals `G * inodes_per_group` for
the `G` block groups actually emitted, and the superblock's
`inodes_count` equals `ceil(blocks_count_u32 / 32768) * inodes_per_group`
— a group count recomputed from the final block count, which the code
does not constrain to equal `G`; the claimed identity
`inodes_count = G * inodes_per_group` holds exactly when the recomputed
group count agrees with `G`. -/
theorem claim_C6_amended (st : WriterSt) (out : FinalizeOut)
    (h : finalize st = RResult.ok out) :
    out.inodeRecordsWritten = out.groupsEmitted * out.inodesPerGroup ∧
    out.inodesCountSb = sbBlockGroupsCount out.blocksCount * out.inodesPerGroup ∧
    (sbBlockGroupsCount out.blocksCount = out.groupsEmitted →
      out.inodesCountSb = out.groupsEmitted * out.inodesPerGroup) := by
  unfold finalize at h
  rcases hwh : write_hierarchy_to_inodes { alloc := st.alloc, inodeCount := st.inodeCount }
      st.tree 2 2 with _ | st1 <;> rw [hwh] at h
  · exact RResult.noConfusion h
  · dsimp only at h
    split at h
    · split at h
      · simp only [RResult.ok.injEq] at h
        subst h
        refine ⟨rfl, rfl, fun heq => ?_⟩
        dsimp only at heq ⊢
        rw [heq]
      · exact RResult.noConfusion h
    · exact RResult.noConfusion h

/-- Witness for C6: the amended theorem applied to the concrete writer
of the counterexample run. -/
theorem claim_C6_witness :
    c6out.inodeRecordsWritten = c6out.groupsEmitted * c6out.inodesPerGroup ∧
    c6out.inodesCountSb = sbBlockGroupsCount c6out.blocksCount * c6out.inodesPerGroup := by
  have h := claim_C6_amended
    (write_file c6small (List.replicate (65509 * 4096) 0) "big" 0o644).1 c6out c6_finalize
  exact ⟨h.1, h.2.1⟩

end ExtImg
